import Mathlib

/-!
# awflip: the Flipper serial client (`lib/flipper/flipper.go`)

A shallow embedding of the protocol client: the serial port is an explicit
state (the outcomes of the coming `Read`, `Write` and `Drain` calls and the log
of payloads written), Go strings are lists of characters, Go `error` values
are an optional `GoError`, and a method of `*Device` returns the new device
state next to its Go results, inside an `Outcome` that also tells a run that
panics and a run that never returns (the read loop of the framer waiting for
a silent device).

The port is opened with seven data bits, so every received byte is an ASCII
character; received bytes are therefore modelled as `Char`.
-/

set_option autoImplicit false

namespace flipper

/-- Go `string`, as the list of its characters. -/
abbrev Str := List Char

/-! ## Go `error` values -/

/-- Go `error` values met by the client: `new` is an error made by `errors.New`
or `fmt.Errorf` (its text), `num` is the `*strconv.NumError` of `strconv.Atoi`
or `strconv.ParseInt` (the name of the function, the offending input, and
whether it is `ErrRange` rather than `ErrSyntax`),
`io` is an error handed up by the serial port or the operating system. -/
inductive GoError where
  | new (msg : Str)
  | num (fn : Str) (input : Str) (range : Bool)
  | io (msg : Str)
  deriving DecidableEq, Repr

/-! ## The Go standard library functions the client calls -/

namespace strings

/-- Go `strings.HasPrefix`. -/
def HasPrefix (s p : Str) : Bool := p.isPrefixOf s

/-- Go `strings.HasSuffix`. -/
def HasSuffix (s p : Str) : Bool := p.isSuffixOf s

/-- Go `strings.TrimPrefix`: `s` without the leading `p`, or `s` itself. -/
def TrimPrefix (s p : Str) : Str := if HasPrefix s p then s.drop p.length else s

/-- Go `strings.TrimSuffix`: `s` without the trailing `p`, or `s` itself. -/
def TrimSuffix (s p : Str) : Str :=
  if HasSuffix s p then s.take (s.length - p.length) else s

/-- Go `strings.TrimLeft`: all leading characters contained in `cutset` are
removed. -/
def TrimLeft (s cutset : Str) : Str := s.dropWhile (fun c => decide (c ∈ cutset))

/-- Go `strings.TrimRight`: all trailing characters contained in `cutset` are
removed. -/
def TrimRight (s cutset : Str) : Str := s.rdropWhile (fun c => decide (c ∈ cutset))

/-- Go `unicode.IsSpace`. -/
def isSpace (c : Char) : Bool :=
  let n := c.toNat
  (9 ≤ n && n ≤ 13) || n == 32 || n == 0x85 || n == 0xA0 || n == 0x1680 ||
  (0x2000 ≤ n && n ≤ 0x200a) || n == 0x2028 || n == 0x2029 || n == 0x202f ||
  n == 0x205f || n == 0x3000

/-- Go `strings.TrimSpace`. -/
def TrimSpace (s : Str) : Str := (s.dropWhile isSpace).rdropWhile isSpace

/-- Go `strings.ToLower` on the 7-bit characters of the channel. -/
def ToLower (s : Str) : Str := s.map Char.toLower

/-- Go `strings.Contains`: `sub` occurs somewhere in `s`. -/
def Contains : Str → Str → Bool
  | [], sub => sub.isPrefixOf []
  | c :: cs, sub => sub.isPrefixOf (c :: cs) || Contains cs sub

/-- The loop of Go `strings.Split` for a non-empty separator: `skip` counts
the characters of a matched separator still to pass over, `acc` holds the
current piece in reverse. -/
def splitLoop (sep : Str) : Nat → Str → Str → List Str
  | _, [], acc => [acc.reverse]
  | k + 1, _ :: cs, acc => splitLoop sep k cs acc
  | 0, c :: cs, acc =>
    if sep.isPrefixOf (c :: cs) then acc.reverse :: splitLoop sep (sep.length - 1) cs []
    else splitLoop sep 0 cs (c :: acc)

/-- Go `strings.Split`: the pieces of `s` between the non-overlapping
occurrences of `sep`, found left to right; with an empty separator the string
is cut into its characters. -/
def Split (s sep : Str) : List Str :=
  if sep = [] then s.map (fun c => [c]) else splitLoop sep 0 s []

/-- Go `strings.Join`. -/
def Join (elems : List Str) (sep : Str) : Str := sep.intercalate elems

end strings

namespace strconv

/-- The largest `uint64`. -/
def maxUint64 : Nat := 2 ^ 64 - 1

/-- The digit loop of Go `strconv.ParseUint(s, 10, 64)`: left to right, a
character that is no decimal digit is a syntax error (`false`), an overflow of
`uint64` is a range error (`true`). -/
def parseUintLoop : Str → Nat → Except Bool Nat
  | [], n => .ok n
  | c :: cs, n =>
    if !c.isDigit then .error false
    else if n ≥ maxUint64 / 10 + 1 then .error true
    else if n * 10 + (c.toNat - 48) > maxUint64 then .error true
    else parseUintLoop cs (n * 10 + (c.toNat - 48))

/-- Go `strconv.ParseInt(s, 10, 64)`, with the name `fn` to put in the error:
an optional sign, then decimal digits.  A syntax error gives 0, a value
outside `int64` gives the nearest bound, each with a `*NumError` naming the
whole input. -/
def parseInt64 (fn : Str) (s : Str) : Int × Option GoError :=
  let neg := s.head? = some '-'
  let body := if s.head? = some '+' ∨ s.head? = some '-' then s.tail else s
  if body = [] then (0, some (.num fn s false))
  else
    match parseUintLoop body 0 with
    | .error false => (0, some (.num fn s false))
    | .error true =>
      if neg then (-(2 ^ 63 : Int), some (.num fn s true))
      else ((2 ^ 63 : Int) - 1, some (.num fn s true))
    | .ok un =>
      if ¬ neg ∧ un ≥ 2 ^ 63 then ((2 ^ 63 : Int) - 1, some (.num fn s true))
      else if neg ∧ un > 2 ^ 63 then (-(2 ^ 63 : Int), some (.num fn s true))
      else (if neg then -(un : Int) else (un : Int), none)

/-- Go `strconv.Atoi` on a 64-bit platform. -/
def Atoi (s : Str) : Int × Option GoError := parseInt64 "Atoi".data s

/-- Go `strconv.ParseInt(s, 10, 64)`. -/
def ParseInt (s : Str) : Int × Option GoError := parseInt64 "ParseInt".data s

/-- Two hexadecimal digits of a character code below 256. -/
def hex2 (n : Nat) : Str := [Nat.digitChar (n / 16 % 16), Nat.digitChar (n % 16)]

/-- Go `strconv.Quote` on one character of the 7-bit range. -/
def quoteChar (c : Char) : Str :=
  if c = '"' then ['\\', '"']
  else if c = '\\' then ['\\', '\\']
  else if c = '\n' then ['\\', 'n']
  else if c = '\r' then ['\\', 'r']
  else if c = '\t' then ['\\', 't']
  else if c.toNat = 7 then ['\\', 'a']
  else if c.toNat = 8 then ['\\', 'b']
  else if c.toNat = 12 then ['\\', 'f']
  else if c.toNat = 11 then ['\\', 'v']
  else if c.toNat < 32 ∨ c.toNat = 127 then '\\' :: 'x' :: hex2 c.toNat
  else [c]

/-- Go `strconv.Quote`. -/
def Quote (s : Str) : Str := '"' :: (s.flatMap quoteChar ++ ['"'])

end strconv

/-- Go `fmt` verb `%v` on an `int`. -/
def fmtInt (i : Int) : Str :=
  if i < 0 then '-' :: Nat.toDigits 10 i.natAbs else Nat.toDigits 10 i.toNat

/-- The text of an error, Go `err.Error()`. -/
def GoError.Error : GoError → Str
  | .new msg => msg
  | .io msg => msg
  | .num fn input range =>
    "strconv.".data ++ fn ++ ": parsing ".data ++ strconv.Quote input ++
      (if range then ": value out of range".data else ": invalid syntax".data)

namespace filepath

/-- One step of Go `filepath.Clean` on the stack of kept elements (innermost
first): empty and `.` elements are dropped, `..` removes the element before it
when there is one, is dropped at the root and is kept otherwise. -/
def cleanStep (rooted : Bool) (stack : List Str) (elem : Str) : List Str :=
  if elem = [] ∨ elem = ['.'] then stack
  else if elem = ['.', '.'] then
    match stack with
    | [] => if rooted then [] else [elem]
    | top :: rest => if top = ['.', '.'] then elem :: top :: rest else rest
  else elem :: stack

/-- Go `filepath.Clean` (Unix): the shortest equivalent path, by lexical
processing only. -/
def Clean (path : Str) : Str :=
  let rooted := path.head? = some '/'
  let stack := (strings.Split path ['/']).foldl (cleanStep rooted) []
  let body := strings.Join stack.reverse ['/']
  let out := if rooted then '/' :: body else body
  if out = [] then ['.'] else out

/-- Go `filepath.Join`: the elements from the first non-empty one on, joined
by the separator and cleaned; the empty string when all are empty. -/
def Join (elems : List Str) : Str :=
  match elems.dropWhile (fun e => decide (e = [])) with
  | [] => []
  | es => Clean (strings.Join es ['/'])

/-- Go `filepath.Base`: the last element of the path. -/
def Base (path : Str) : Str :=
  if path = [] then ['.']
  else
    let p := path.rdropWhile (fun c => c == '/')
    let last := (p.reverse.takeWhile (fun c => c != '/')).reverse
    if last = [] then ['/'] else last

end filepath

/-! ## The serial port -/

/-- The outcome of one `Port.Read` call into the 64-byte buffer of the framer:
the bytes delivered (`n` is their number) and the error, if any. -/
structure ReadResult where
  data : Str
  err : Option GoError
  deriving DecidableEq, Repr

/-- The serial port, Go `serial.Port`: `reads`, `writeErrs` and `drainErrs`
are the outcomes of the coming `Read`, `Write` and `Drain` calls, in order;
once `reads` is used up the device is silent and every `Read` times out with
`(0, nil)`, once `writeErrs` or `drainErrs` is used up the call succeeds.
`written` logs the payload of every `Write` call so far. -/
structure Port where
  reads : List ReadResult
  writeErrs : List (Option GoError)
  drainErrs : List (Option GoError)
  closeErr : Option GoError
  written : List Str
  deriving DecidableEq, Repr

/-- Go `Port.Write(b)`: the payload is logged, the outcome is the next scripted one. -/
def Port.Write (p : Port) (b : Str) : Option GoError × Port :=
  (p.writeErrs.head?.join, { p with writeErrs := p.writeErrs.tail, written := p.written ++ [b] })

/-- Go `Port.Drain()`. -/
def Port.Drain (p : Port) : Option GoError × Port :=
  (p.drainErrs.head?.join, { p with drainErrs := p.drainErrs.tail })

/-- The outcome of a call: it returns, it panics (a Go run-time panic, an
index out of range), or it never returns.  `outOfFuel` is the answer of a
recursive definition whose bound on the recursion depth or on the number of
loop rounds was too small for the run. -/
inductive Outcome (α : Type) where
  | ret (a : α)
  | panic
  | hang
  | outOfFuel
  deriving DecidableEq, Repr

/-! ## The device session -/

/-- Go `FileInfo`. -/
structure FileInfo where
  IsDir : Bool := false
  IsPlain : Bool := false
  Path : Str := []
  Size : Int := 0
  deriving DecidableEq, Repr

/-- Go `Device`; `Port` is `none` for the nil port of a closed device. -/
structure Device where
  PortName : Str
  Port : Option Port
  Banner : Str
  ChunkSize : Nat
  deriving DecidableEq, Repr

/-- Go constant `cliPrompt`. -/
def cliPrompt : Str := ">: ".data

/-- Go constant `cliEOL`. -/
def cliEOL : Str := "\r\n".data

/-- Go `errOnly`. -/
def errOnly (r : Str × Option GoError) : Option GoError := r.2

/-- Go `checkPath`. -/
def checkPath (path : Str) : Option GoError :=
  if !strings.HasPrefix path "/int".data && !strings.HasPrefix path "/ext".data then
    some (.new "path needs to have the prefix /int or /ext".data)
  else none

/-- The read loop of `readUntilNextPrompt` over the coming read outcomes: the
accumulated buffer and the outcomes left, or `none` when the loop never ends
(nothing was received and the device stays silent). -/
def readLoop : Bool → Str → List ReadResult → Option (Str × List ReadResult)
  | started, buffer, [] => if started then some (buffer, []) else none
  | started, buffer, r :: rs =>
    let started1 := started || decide (r.data.length > 0)
    let buffer1 := buffer ++ r.data
    if started1 && (r.err.isSome || r.data.length == 0) then some (buffer1, rs)
    else readLoop started1 buffer1 rs

/-- The three trims of `readUntilNextPrompt` on the accumulated text. -/
def trimReply (pfx : Str) (buffer : Str) : Str :=
  let output := buffer
  let output := strings.TrimLeft output pfx
  let output := strings.TrimLeft output "\n".data
  strings.TrimRight output (cliEOL ++ cliPrompt)

/-- The text processing at the end of `readUntilNextPrompt`: the three trims
and the scan for an in-band error. -/
def frameReply (pfx : Str) (buffer : Str) : Str × Option GoError :=
  let output := trimReply pfx buffer
  let checkStr := strings.ToLower output
  if strings.Contains checkStr "storage error:".data || strings.Contains checkStr "usage:".data then
    (output, some (.new output))
  else (output, none)

/-- Go `(*Device).readUntilNextPrompt`, on the port of the device. -/
def readUntilNextPrompt (p : Port) (pfx : Str) : Outcome ((Str × Option GoError) × Port) :=
  match readLoop false [] p.reads with
  | none => .hang
  | some (buffer, rest) => .ret (frameReply pfx buffer, { p with reads := rest })

/-- Go `(*Device).Request`; `cmd` is the command line already formatted by
`fmt.Sprintf(cmd, args...)`. -/
def Device.Request (dvc : Device) (cmd : Str) : Outcome ((Str × Option GoError) × Device) :=
  let fullCmd := cmd ++ ['\r']
  match dvc.Port with
  | none => .ret (([], some (.new "device no longer connected".data)), dvc)
  | some p =>
    match p.Write fullCmd with
    | (some err, p1) => .ret (([], some err), { dvc with Port := some p1 })
    | (none, p1) =>
      match p1.Drain with
      | (some err, p2) => .ret (([], some err), { dvc with Port := some p2 })
      | (none, p2) =>
        match readUntilNextPrompt p2 fullCmd with
        | .ret (r, p3) => .ret (r, { dvc with Port := some p3 })
        | .panic => .panic
        | .hang => .hang
        | .outOfFuel => .outOfFuel

/-- A request of which only the error is returned: `errOnly(dvc.Request(...))`. -/
def Device.requestErr (dvc : Device) (cmd : Str) : Outcome (Option GoError × Device) :=
  match dvc.Request cmd with
  | .ret (r, dvc1) => .ret (errOnly r, dvc1)
  | .panic => .panic
  | .hang => .hang
  | .outOfFuel => .outOfFuel

/-- Go `(*Device).Mkdir`. -/
def Device.Mkdir (dvc : Device) (path : Str) : Outcome (Option GoError × Device) :=
  dvc.requestErr ("storage mkdir ".data ++ path)

/-- Go `(*Device).Rm`. -/
def Device.Rm (dvc : Device) (path : Str) : Outcome (Option GoError × Device) :=
  dvc.requestErr ("storage remove ".data ++ path)

/-- Go `(*Device).Copy`. -/
def Device.Copy (dvc : Device) (src dst : Str) : Outcome (Option GoError × Device) :=
  dvc.requestErr ("storage copy ".data ++ src ++ " ".data ++ dst)

/-- Go `(*Device).Rename`. -/
def Device.Rename (dvc : Device) (src dst : Str) : Outcome (Option GoError × Device) :=
  dvc.requestErr ("storage rename ".data ++ src ++ " ".data ++ dst)

/-- Go `(*Device).Md5`. -/
def Device.Md5 (dvc : Device) (path : Str) : Outcome ((Str × Option GoError) × Device) :=
  dvc.Request ("storage md5 ".data ++ path)

/-- Go `(*Device).StoreInfo`. -/
def Device.StoreInfo (dvc : Device) (path : Str) : Outcome ((Str × Option GoError) × Device) :=
  dvc.Request ("storage info ".data ++ path)

/-- Go `(*Device).Format`. -/
def Device.Format (dvc : Device) (path : Str) : Outcome (Option GoError × Device) :=
  match dvc.Request ("storage format ".data ++ path) with
  | .ret ((_, some err), dvc1) => .ret (some err, dvc1)
  | .ret ((_, none), dvc1) => dvc1.requestErr "y".data
  | .panic => .panic
  | .hang => .hang
  | .outOfFuel => .outOfFuel

/-- The part of `(*Device).Stat` after the request: the reply classified. -/
def statReply (path : Str) (r : Str × Option GoError) : FileInfo × Option GoError :=
  match r with
  | (_, some _) => ({}, none)
  | (resp, none) =>
    if strings.HasPrefix resp "Directory".data then
      ({ Path := path, IsDir := true }, none)
    else if strings.HasPrefix resp "File, ".data then
      let r := strconv.Atoi
        (strings.TrimSuffix (strings.TrimPrefix resp "File, size: ".data) "b".data)
      ({ Path := path, IsPlain := true, Size := r.1 }, r.2)
    else ({}, some (.new ("unknown file info: ".data ++ resp)))

/-- Go `(*Device).Stat`. -/
def Device.Stat (dvc : Device) (path : Str) : Outcome ((FileInfo × Option GoError) × Device) :=
  match dvc.Request ("storage stat ".data ++ path) with
  | .ret (r, dvc1) => .ret (statReply path r, dvc1)
  | .panic => .panic
  | .hang => .hang
  | .outOfFuel => .outOfFuel

/-- Go `(*Device).Timestamp`; the time is given in seconds since the epoch,
`none` standing for the `time.Now()` returned with a failed request. -/
def Device.Timestamp (dvc : Device) (path : Str) :
    Outcome ((Option Int × Option GoError) × Device) :=
  match dvc.Request ("storage timestamp ".data ++ path) with
  | .ret ((_, some err), dvc1) => .ret ((none, some err), dvc1)
  | .ret ((resp, none), dvc1) =>
    let r := strconv.ParseInt (strings.TrimLeft resp "Timestamp ".data)
    .ret ((some r.1, r.2), dvc1)
  | .panic => .panic
  | .hang => .hang
  | .outOfFuel => .outOfFuel

/-- The loop of `(*Device).MkdirAll` over the indices `i` of `pathParts`. -/
def mkdirAllLoop (pathParts : List Str) : List Nat → Device → Outcome (Option GoError × Device)
  | [], dvc => .ret (none, dvc)
  | i :: rest, dvc =>
    let dirName := filepath.Join (pathParts.take (i + 1))
    match dvc.Stat dirName with
    | .ret ((info, err), dvc1) =>
      if err.isNone && info.IsDir then mkdirAllLoop pathParts rest dvc1
      else if info.IsPlain then
        .ret (some (.new (dirName ++
          " is a plain file that already exists and is not a directory".data)), dvc1)
      else
        match dvc1.Mkdir dirName with
        | .ret (some err, dvc2) => .ret (some err, dvc2)
        | .ret (none, dvc2) => mkdirAllLoop pathParts rest dvc2
        | .panic => .panic
        | .hang => .hang
        | .outOfFuel => .outOfFuel
    | .panic => .panic
    | .hang => .hang
    | .outOfFuel => .outOfFuel

/-- Go `(*Device).MkdirAll`. -/
def Device.MkdirAll (dvc : Device) (path : Str) : Outcome (Option GoError × Device) :=
  match checkPath path with
  | some err => .ret (some err, dvc)
  | none =>
    let pathParts := strings.Split (strings.TrimPrefix path "/".data) "/".data
    mkdirAllLoop pathParts (List.range pathParts.length) dvc

/-- The loop of `(*Device).Ls` over the lines of the reply; a `[F]` line with
no second token makes `parts[1]` panic. -/
def lsLoop (dir : Str) : List Str → List FileInfo → List FileInfo →
    Outcome (List FileInfo × Option GoError)
  | [], dirs, plain => .ret (dirs ++ plain, none)
  | file :: rest, dirs, plain =>
    let path := strings.TrimSpace file
    if strings.HasPrefix path "[D]".data then
      lsLoop dir rest
        (dirs ++ [{ IsDir := true,
                    Path := filepath.Join [dir, strings.TrimPrefix path "[D] ".data] }]) plain
    else if strings.HasPrefix path "[F]".data then
      let parts := strings.Split (strings.TrimPrefix path "[F] ".data) " ".data
      match parts.get? 1 with
      | none => .panic
      | some p1 =>
        match strconv.Atoi (strings.TrimSuffix (strings.TrimSpace p1) "b".data) with
        | (_, some err) => .ret ([], some err)
        | (size, none) =>
          lsLoop dir rest dirs
            (plain ++ [{ IsPlain := true, Path := filepath.Join [dir, parts.headD []],
                         Size := size }])
    else lsLoop dir rest dirs plain

/-- Go `(*Device).Ls`. -/
def Device.Ls (dvc : Device) (dir : Str) : Outcome ((List FileInfo × Option GoError) × Device) :=
  match checkPath dir with
  | some err => .ret (([], some err), dvc)
  | none =>
    let dir := if strings.HasSuffix dir "/".data then strings.TrimRight dir "/".data else dir
    match dvc.Request ("storage list ".data ++ dir) with
    | .ret ((_, some err), dvc1) => .ret (([], some err), dvc1)
    | .ret ((resp, none), dvc1) =>
      match lsLoop dir (strings.Split resp cliEOL) [] [] with
      | .ret r => .ret (r, dvc1)
      | .panic => .panic
      | .hang => .hang
      | .outOfFuel => .outOfFuel
    | .panic => .panic
    | .hang => .hang
    | .outOfFuel => .outOfFuel

/-! ## The directory walker -/

/-- The visitor handed to `Walk`, a Go closure: it may issue requests on the
device and has a state of its own. -/
abbrev Visitor (σ : Type) := FileInfo → Device → σ → Outcome (Option GoError × Device × σ)

/-- The first loop of `(*Device).Walk`: the visitor is called on every item,
the directories are collected. -/
def walkVisit {σ : Type} (fn : Visitor σ) :
    List FileInfo → List FileInfo → Device → σ →
      Outcome ((Option GoError × List FileInfo) × Device × σ)
  | [], dirs, dvc, s => .ret ((none, dirs), dvc, s)
  | info :: rest, dirs, dvc, s =>
    match fn info dvc s with
    | .ret (some err, dvc1, s1) => .ret ((some err, dirs), dvc1, s1)
    | .ret (none, dvc1, s1) =>
      walkVisit fn rest (if info.IsDir then dirs ++ [info] else dirs) dvc1 s1
    | .panic => .panic
    | .hang => .hang
    | .outOfFuel => .outOfFuel

/-- The second loop of `(*Device).Walk`: `walk` is the recursive call. -/
def walkDirs {σ : Type} (walk : Device → Str → σ → Outcome (Option GoError × Device × σ)) :
    List FileInfo → Device → σ → Outcome (Option GoError × Device × σ)
  | [], dvc, s => .ret (none, dvc, s)
  | info :: rest, dvc, s =>
    match walk dvc info.Path s with
    | .ret (some err, dvc1, s1) => .ret (some err, dvc1, s1)
    | .ret (none, dvc1, s1) => walkDirs walk rest dvc1 s1
    | .panic => .panic
    | .hang => .hang
    | .outOfFuel => .outOfFuel

/-- Go `(*Device).Walk`; the first argument bounds the depth of the recursion. -/
def Device.Walk {σ : Type} (fn : Visitor σ) :
    Nat → Device → Str → σ → Outcome (Option GoError × Device × σ)
  | 0, _, _, _ => .outOfFuel
  | fuel + 1, dvc, dir, s =>
    match dvc.Ls dir with
    | .ret ((_, some err), dvc1) => .ret (some err, dvc1, s)
    | .ret ((items, none), dvc1) =>
      match walkVisit fn items [] dvc1 s with
      | .ret ((some err, _), dvc2, s2) => .ret (some err, dvc2, s2)
      | .ret ((none, dirs), dvc2, s2) => walkDirs (Device.Walk fn fuel) dirs dvc2 s2
      | .panic => .panic
      | .hang => .hang
      | .outOfFuel => .outOfFuel
    | .panic => .panic
    | .hang => .hang
    | .outOfFuel => .outOfFuel

/-! ## The file transfer engine -/

/-- The local file system as a download sees it: the regular files known (path
and content), the outcomes of the coming `os.MkdirAll`, `os.OpenFile` and
`Close` calls (`faults`) and of the coming `Write` calls on the open file
(`writeFaults`: the number of bytes that still got written, and the error);
once a list is used up the call succeeds.  `written` logs every `Write` call
so far: the path of the file and the bytes that got written. -/
structure LocalFS where
  files : List (Str × Str)
  faults : List (Option GoError)
  writeFaults : List (Option (Nat × GoError))
  written : List (Str × Str)
  deriving DecidableEq, Repr

/-- The content of the local file at `path`, empty when there is none. -/
def LocalFS.content (fs : LocalFS) (path : Str) : Str :=
  ((fs.files.find? (fun f => f.1 == path)).map (fun f => f.2)).getD []

/-- A call that touches no file content: `os.MkdirAll`, `Close`. -/
def LocalFS.call (fs : LocalFS) : Option GoError × LocalFS :=
  (fs.faults.head?.join, { fs with faults := fs.faults.tail })

/-- Go `os.OpenFile(path, os.O_CREATE|os.O_WRONLY|os.O_EXCL, 0644)`: it fails
on a file that exists, and creates the empty file otherwise. -/
def LocalFS.OpenFile (fs : LocalFS) (path : Str) : Option GoError × LocalFS :=
  if fs.files.any (fun f => f.1 == path) then
    (some (.io ("open ".data ++ path ++ ": file exists".data)), fs)
  else
    match fs.faults.head?.join with
    | some err => (some err, { fs with faults := fs.faults.tail })
    | none => (none, { fs with faults := fs.faults.tail, files := (path, []) :: fs.files })

/-- The bytes `b` appended to the file at `path`. -/
def appendTo (path : Str) (b : Str) : List (Str × Str) → List (Str × Str)
  | [] => [(path, b)]
  | f :: rest => if f.1 == path then (f.1, f.2 ++ b) :: rest else f :: appendTo path b rest

/-- Go `out.Write(b)` on the file opened at `path`: the number of bytes
written and the error. -/
def LocalFS.Write (fs : LocalFS) (path : Str) (b : Str) : (Nat × Option GoError) × LocalFS :=
  match fs.writeFaults.head?.join with
  | some (k, err) =>
    ((min k b.length, some err),
      { fs with writeFaults := fs.writeFaults.tail, files := appendTo path (b.take k) fs.files,
                written := fs.written ++ [(path, b.take k)] })
  | none =>
    ((b.length, none),
      { fs with writeFaults := fs.writeFaults.tail, files := appendTo path b fs.files,
                written := fs.written ++ [(path, b)] })

/-- The chunk loop of `(*Device).Read`: `out` is the path of the open local
file, `size` is `info.Size`; the first argument bounds the number of rounds. -/
def readChunks (out : Str) (size : Int) :
    Nat → Int → Device → LocalFS → Outcome (Option GoError × Device × LocalFS)
  | 0, _, _, _ => .outOfFuel
  | fuel + 1, readSize, dvc, fs =>
    if readSize < size then
      match dvc.Request "y".data with
      | .ret ((_, some err), dvc1) => .ret (some err, dvc1, fs)
      | .ret ((byteData, none), dvc1) =>
        let byteData := strings.TrimRight byteData (cliEOL ++ "Ready?".data)
        match fs.Write out byteData with
        | ((_, some err), fs1) => .ret (some err, dvc1, fs1)
        | ((n, none), fs1) => readChunks out size fuel (readSize + n) dvc1 fs1
      | .panic => .panic
      | .hang => .hang
      | .outOfFuel => .outOfFuel
    else
      match fs.call with
      | (err, fs1) => .ret (err, dvc, fs1)

/-- Go `(*Device).Read`; the first argument bounds the depth of the recursion
and the number of rounds of each loop.  The progress messages printed on the
standard output are left out. -/
def Device.Read : Nat → Device → LocalFS → Str → Str → Outcome (Option GoError × Device × LocalFS)
  | 0, _, _, _, _ => .outOfFuel
  | fuel + 1, dvc, fs, srcPath, dstPath =>
    match dvc.Stat srcPath with
    | .ret ((_, some err), dvc1) => .ret (some err, dvc1, fs)
    | .ret ((info, none), dvc1) =>
      if info.IsDir then
        let rootDir := info.Path
        Device.Walk
          (fun info d t =>
            if info.IsDir then .ret (none, d, t)
            else Device.Read fuel d t info.Path
              (filepath.Join [dstPath, strings.TrimPrefix info.Path (rootDir ++ "/".data)]))
          fuel dvc1 info.Path fs
      else
        match fs.call with
        | (some err, fs1) => .ret (some err, dvc1, fs1)
        | (none, fs1) =>
          let out := filepath.Join [dstPath, filepath.Base srcPath]
          match fs1.OpenFile out with
          | (some err, fs2) => .ret (some err, dvc1, fs2)
          | (none, fs2) =>
            match dvc1.Request ("storage read_chunks ".data ++ srcPath ++ " ".data ++
                fmtInt dvc1.ChunkSize) with
            | .ret ((_, some err), dvc2) => .ret (some err, dvc2, fs2)
            | .ret ((resp, none), dvc2) =>
              let lines := strings.Split resp cliEOL
              if lines.length = 0 ∨ !strings.HasPrefix (lines.headD []) "Size: ".data then
                .ret (some (.new "malformed response".data), dvc2, fs2)
              else readChunks out info.Size fuel 0 dvc2 fs2
            | .panic => .panic
            | .hang => .hang
            | .outOfFuel => .outOfFuel
    | .panic => .panic
    | .hang => .hang
    | .outOfFuel => .outOfFuel

/-- What the local file system answers for a path during an upload: the
outcome of `os.Stat` (`statErr`, `isDir`, `name` for `lclInfo.Name()`), of
`os.Open` (`openErr`), the bytes of the file, and for a directory the entries
`filepath.Walk` visits under it, in order (`info.Name()`, `info.IsDir()` and
the error handed to the callback). -/
structure LocalEntry where
  statErr : Option GoError
  isDir : Bool
  name : Str
  openErr : Option GoError
  content : Str
  walk : List (Str × Bool × Option GoError)

/-- The local file system as an upload sees it. -/
abbrev LocalDisk := Str → LocalEntry

/-- The chunk loop of `(*Device).Write`: `remaining` is the part of the local
file not read yet; a `file.Read` into an empty chunk gives `(0, nil)`, at the
end of the file it gives `io.EOF`.  The first argument bounds the number of
rounds. -/
def writeChunks (dstPath : Str) : Nat → Device → Str → Outcome (Option GoError × Device)
  | 0, _, _ => .outOfFuel
  | fuel + 1, dvc, remaining =>
    if dvc.ChunkSize ≠ 0 ∧ remaining = [] then .ret (none, dvc)
    else
      let n := min dvc.ChunkSize remaining.length
      match dvc.Request ("storage write_chunk ".data ++ dstPath ++ " ".data ++ fmtInt n) with
      | .ret ((_, some err), dvc1) => .ret (some err, dvc1)
      | .ret ((_, none), dvc1) => writeChunks dstPath fuel dvc1 (remaining.drop n)
      | .panic => .panic
      | .hang => .hang
      | .outOfFuel => .outOfFuel

/-- The callback of `filepath.Walk` in `(*Device).Write`, run over the entries
visited; `write` is the recursive call. -/
def writeWalk (write : Device → Str → Str → Outcome (Option GoError × Device)) (dstPath : Str) :
    List (Str × Bool × Option GoError) → Device → Outcome (Option GoError × Device)
  | [], dvc => .ret (none, dvc)
  | (name, isDir, err) :: rest, dvc =>
    match err with
    | some e => .ret (some e, dvc)
    | none =>
      if isDir then writeWalk write dstPath rest dvc
      else
        match write dvc name (filepath.Join [dstPath, filepath.Base name]) with
        | .ret (some e, dvc1) => .ret (some e, dvc1)
        | .ret (none, dvc1) => writeWalk write dstPath rest dvc1
        | .panic => .panic
        | .hang => .hang
        | .outOfFuel => .outOfFuel

/-- Go `(*Device).Write`; the first argument bounds the depth of the recursion
and the number of rounds of the chunk loop. -/
def Device.Write (disk : LocalDisk) :
    Nat → Device → Str → Str → Outcome (Option GoError × Device)
  | 0, _, _, _ => .outOfFuel
  | fuel + 1, dvc, srcPath, dstPath =>
    let lclInfo := disk srcPath
    match lclInfo.statErr with
    | some err => .ret (some err, dvc)
    | none =>
      if lclInfo.isDir then
        writeWalk (Device.Write disk fuel) dstPath (disk lclInfo.name).walk dvc
      else
        match lclInfo.openErr with
        | some err => .ret (some err, dvc)
        | none =>
          match dvc.Stat dstPath with
          | .ret ((_, none), dvc1) =>
            match dvc1.Rm dstPath with
            | .ret (some err, dvc2) => .ret (some err, dvc2)
            | .ret (none, dvc2) => .ret (none, dvc2)
            | .panic => .panic
            | .hang => .hang
            | .outOfFuel => .outOfFuel
          | .ret ((_, some _), dvc1) =>
            match dvc1.MkdirAll dstPath with
            | .ret (some err, dvc2) => .ret (some err, dvc2)
            | .ret (none, dvc2) => writeChunks dstPath fuel dvc2 lclInfo.content
            | .panic => .panic
            | .hang => .hang
            | .outOfFuel => .outOfFuel
          | .panic => .panic
          | .hang => .hang
          | .outOfFuel => .outOfFuel

/-! ## The remaining commands, closing and opening -/

/-- Go `Port.Close()`. -/
def Port.Close (p : Port) : Option GoError := p.closeErr

/-- Go `(*Device).Close`: the port of the device becomes nil, whatever the port
answers to its own `Close`. -/
def Device.Close (dvc : Device) : Option GoError × Device :=
  match dvc.Port with
  | none => (none, dvc)
  | some p => (p.Close, { dvc with Port := none })

/-- Go `(*Device).Backlight`. -/
def Device.Backlight (dvc : Device) (i : Int) : Outcome (Option GoError × Device) :=
  if i < 0 ∨ i > 255 then
    .ret (some (.new "intesity value should be between 0-255".data), dvc)
  else dvc.requestErr ("led bl ".data ++ fmtInt i)

/-- Go `(*Device).LED`. -/
def Device.LED (dvc : Device) (r g b : Int) : Outcome (Option GoError × Device) :=
  if r < 0 ∨ r > 255 ∨ g < 0 ∨ g > 255 ∨ b < 0 ∨ b > 255 then
    .ret (some (.new "rgb values should be between 0-255".data), dvc)
  else
    match dvc.Request ("led r ".data ++ fmtInt r) with
    | .ret ((_, some err), dvc1) => .ret (some err, dvc1)
    | .ret ((_, none), dvc1) =>
      match dvc1.Request ("led g ".data ++ fmtInt g) with
      | .ret ((_, some err), dvc2) => .ret (some err, dvc2)
      | .ret ((_, none), dvc2) =>
        match dvc2.Request ("led b ".data ++ fmtInt b) with
        | .ret ((_, some err), dvc3) => .ret (some err, dvc3)
        | .ret ((_, none), dvc3) => .ret (none, dvc3)
        | .panic => .panic
        | .hang => .hang
        | .outOfFuel => .outOfFuel
      | .panic => .panic
      | .hang => .hang
      | .outOfFuel => .outOfFuel
    | .panic => .panic
    | .hang => .hang
    | .outOfFuel => .outOfFuel

/-- Go `(*Device).PowerOff`. -/
def Device.PowerOff (dvc : Device) : Outcome (Option GoError × Device) :=
  dvc.requestErr "power off".data

/-- Go `(*Device).Reboot`. -/
def Device.Reboot (dvc : Device) : Outcome (Option GoError × Device) :=
  dvc.requestErr "power reboot".data

/-- Go `(*Device).Reboot2DFU`. -/
def Device.Reboot2DFU (dvc : Device) : Outcome (Option GoError × Device) :=
  dvc.requestErr "power reboot2dfu".data

/-- Go map assignment `m[k] = v` on a `map[string]string`, kept as the list of
its keys with their values. -/
def mapSet (m : List (Str × Str)) (k v : Str) : List (Str × Str) :=
  if m.any (fun e => e.1 == k) then m.map (fun e => if e.1 == k then (k, v) else e)
  else m ++ [(k, v)]

/-- Go map lookup `m[k]`, with `none` for an absent key. -/
def mapGet (m : List (Str × Str)) (k : Str) : Option Str :=
  (m.find? (fun e => e.1 == k)).map (fun e => e.2)

/-- The loop of `(*Device).Info` over the lines of the reply; `none` is the
panic of `parts[1]` on a line without a colon. -/
def infoLoop : List Str → List (Str × Str) → Option (List (Str × Str))
  | [], details => some details
  | line :: rest, details =>
    let parts := strings.Split line ":".data
    match parts.get? 1 with
    | none => none
    | some p1 =>
      infoLoop rest (mapSet details (strings.TrimSpace (parts.headD [])) (strings.TrimSpace p1))

/-- Go `(*Device).Info`; `infoType` is the text of the `InfoType`. -/
def Device.Info (dvc : Device) (infoType : Str) :
    Outcome ((List (Str × Str) × Option GoError) × Device) :=
  match dvc.Request ("info ".data ++ infoType) with
  | .ret ((_, some err), dvc1) => .ret (([], some err), dvc1)
  | .ret ((info, none), dvc1) =>
    match infoLoop (strings.Split info cliEOL) [] with
    | some details => .ret ((details, none), dvc1)
    | none => .panic
  | .panic => .panic
  | .hang => .hang
  | .outOfFuel => .outOfFuel

/-- The fields of Go `enumerator.PortDetails` the client reads. -/
structure PortDetails where
  Name : Str
  SerialNumber : Str
  deriving DecidableEq, Repr

/-- Go `resolvePort`, on the answer of `enumerator.GetDetailedPortsList()`:
the port chosen and the error, and the lines printed on the standard output. -/
def resolvePort (enumerated : List PortDetails × Option GoError) :
    (Option PortDetails × Option GoError) × List Str :=
  match enumerated with
  | (_, some err) => ((none, some err), [])
  | (ports, none) =>
    let flippers := ports.filter (fun port => strings.Contains port.Name "flip_".data)
    if flippers.length ≤ 0 then
      ((none, some (.new "no connected flippers found".data)), [])
    else if flippers.length > 1 then
      ((flippers.head?, none),
        ("[WARN] more than one Flipper is attached, connecting to ".data ++
            (flippers.head?.map (fun f => f.Name)).getD [] ++
            ", other flippers found:\n".data) ::
          flippers.tail.map (fun f => f.Name ++ " : ".data ++ f.SerialNumber ++ "\n".data))
    else ((flippers.head?, none), [])

/-- Go `Open`: `enumerated` is the answer of the port enumeration and
`serialOpen` that of `serial.Open` for a port name; the results are the device
and the error, and the lines printed on the standard output. -/
def Open (enumerated : List PortDetails × Option GoError)
    (serialOpen : Str → Except GoError Port) (portname : Str) :
    Outcome ((Option Device × Option GoError) × List Str) :=
  let resolved : Except GoError (Str × List Str) :=
    if portname = "auto".data ∨ portname = [] then
      match resolvePort enumerated with
      | ((_, some err), _) => .error err
      | ((details, none), printed) => .ok ((details.map (fun d => d.Name)).getD [], printed)
    else .ok (portname, [])
  match resolved with
  | .error err => .ret ((none, some err), [])
  | .ok (name, printed) =>
    match serialOpen name with
    | .error err => .ret ((none, some err), printed)
    | .ok port =>
      match readUntilNextPrompt port [] with
      | .ret ((banner, _), port1) =>
        .ret ((some { PortName := name, Port := some port1, Banner := banner,
                      ChunkSize := 8192 }, none), printed)
      | .panic => .panic
      | .hang => .hang
      | .outOfFuel => .outOfFuel

/-! ## Devices and predicates used to state the properties -/

/-- A connected device with chunk size 8192 whose port has written nothing
yet, never fails to write or drain, and will deliver `reads`. -/
def Device.scripted (reads : List ReadResult) : Device :=
  { PortName := "flip_demo".data,
    Port := some { reads := reads, writeErrs := [], drainErrs := [], closeErr := none,
                   written := [] },
    Banner := [], ChunkSize := 8192 }

/-- The device `Device.scripted reads` after it has written `written`. -/
def Device.logged (reads : List ReadResult) (written : List Str) : Device :=
  { PortName := "flip_demo".data,
    Port := some { reads := reads, writeErrs := [], drainErrs := [], closeErr := none,
                   written := written },
    Banner := [], ChunkSize := 8192 }

/-- A local file system in which every path is the regular file `a.txt` with
the three bytes `abc`. -/
def Device.demoDisk : LocalDisk := fun _ =>
  { statErr := none, isDir := false, name := "a.txt".data, openErr := none,
    content := "abc".data, walk := [] }

/-- A line of a listing as the specification describes it: a directory with
its name, or a file with its name and size. -/
inductive ListEntry where
  | dir (name : Str)
  | file (name : Str) (size : Nat)
  deriving DecidableEq, Repr

/-- The text of a listing line: `[D] <name>` or `[F] <name> <N>b`, the size in
decimal digits. -/
def ListEntry.line : ListEntry → Str
  | .dir name => "[D] ".data ++ name
  | .file name size => "[F] ".data ++ name ++ " ".data ++ Nat.toDigits 10 size ++ "b".data

/-- The name of a listing line. -/
def ListEntry.name : ListEntry → Str
  | .dir name => name
  | .file name _ => name

/-- The size of a listing line, 0 for a directory. -/
def ListEntry.size : ListEntry → Nat
  | .dir _ => 0
  | .file _ size => size

/-- The Directory entry of a `[D]` line listed under `dir`. -/
def ListEntry.dirInfo (dir : Str) : ListEntry → Option FileInfo
  | .dir name => some { IsDir := true, Path := filepath.Join [dir, name] }
  | .file _ _ => none

/-- The Plain entry of a `[F]` line listed under `dir`. -/
def ListEntry.plainInfo (dir : Str) : ListEntry → Option FileInfo
  | .dir _ => none
  | .file name size =>
    some { IsPlain := true, Path := filepath.Join [dir, name], Size := size }

/-- The Go results of a call that returns. -/
def Outcome.result {α : Type} : Outcome (α × Device) → Option α
  | .ret (a, _) => some a
  | _ => none

/-- The payloads written to the port when the call has returned; nothing for a
call that does not return, or that leaves a closed device. -/
def Outcome.written {α : Type} : Outcome (α × Device) → List Str
  | .ret (_, d) => (d.Port.map (fun q => q.written)).getD []
  | _ => []

/-- Whenever the call returns, the device is connected and its port log
starts with the log `before` followed by the payload `line`. -/
def Outcome.wrote {α : Type} (o : Outcome (α × Device)) (before : List Str) (line : Str) : Prop :=
  ∀ a d, o = .ret (a, d) → ∃ q, d.Port = some q ∧ before ++ [line] <+: q.written

/-- The names `MkdirAll` passes to `Stat`, in order: the join of the first
`i + 1` parts of the path, for every index `i` of the parts. -/
def statNames (path : Str) : List Str :=
  let pathParts := strings.Split (strings.TrimPrefix path "/".data) "/".data
  (List.range pathParts.length).map (fun i => filepath.Join (pathParts.take (i + 1)))

/-- The device answers the `storage stat` requests for `names`, one after the
other, each without error and with a reply that begins with `Directory`; `d`
is the device after the last answer. -/
def AnswersDirectory : Device → List Str → Device → Prop
  | dvc, [], d => d = dvc
  | dvc, name :: rest, d =>
    ∃ resp dvc1, dvc.Request ("storage stat ".data ++ name) = .ret ((resp, none), dvc1) ∧
      "Directory".data <+: resp ∧ AnswersDirectory dvc1 rest d

mutual
/-- A directory tree of the device: the entries `Ls` gives for the directory
and the trees of its subdirectories, in listing order. -/
inductive DirTree where
  | node (items : List FileInfo) (subs : DirForest)
/-- The trees of the subdirectories of a directory, in listing order. -/
inductive DirForest where
  | nil
  | cons (t : DirTree) (rest : DirForest)
end

mutual
/-- The visiting order the specification gives for a tree: every entry of the
listing, then the orders of the subdirectories one after the other. -/
def DirTree.expected : DirTree → List FileInfo
  | .node items subs => items ++ subs.expected
/-- The visiting orders of the trees of a forest, one after the other. -/
def DirForest.expected : DirForest → List FileInfo
  | .nil => []
  | .cons t rest => t.expected ++ rest.expected
end

mutual
/-- The number of levels of a tree. -/
def DirTree.depth : DirTree → Nat
  | .node _ subs => subs.depth + 1
/-- The largest number of levels among the trees of a forest. -/
def DirForest.depth : DirForest → Nat
  | .nil => 0
  | .cons t rest => max t.depth rest.depth
end

mutual
/-- The device holds the tree under `dir`: asked to list `dir` it answers with
the entries of the tree, and then holds the trees of the subdirectories; the
result is the device after the last listing. -/
def DirTree.servedBy : DirTree → Device → Str → Option Device
  | .node items subs, dvc, dir =>
    match dvc.Ls dir with
    | .ret ((listed, none), dvc1) =>
      if listed = items then subs.servedBy dvc1 (items.filter (fun i => i.IsDir)) else none
    | _ => none
/-- The device holds the trees of a forest under the paths of `dirs`, asked in
order. -/
def DirForest.servedBy : DirForest → Device → List FileInfo → Option Device
  | .nil, dvc, [] => some dvc
  | .nil, _, _ :: _ => none
  | .cons _ _, _, [] => none
  | .cons t rest, dvc, info :: infos =>
    match t.servedBy dvc info.Path with
    | some dvc1 => rest.servedBy dvc1 infos
    | none => none
end

/-- A visitor that never fails and leaves the device alone: it folds the
entries into its state with `f`. -/
def visitWith {σ : Type} (f : σ → FileInfo → σ) : Visitor σ :=
  fun info dvc s => .ret (none, dvc, f s info)

/-- The state of a visitor under observation: its own state, the first error
it returned with the device as it was right after that call, and the number
of calls made after an error had been returned. -/
structure Traced (σ : Type) where
  state : σ
  failed : Option (GoError × Device)
  late : Nat
  deriving DecidableEq

/-- A visitor that leaves the device alone and may fail: `f` gives, from the
state and the entry, the error it returns and its new state. -/
def visitMay {σ : Type} (f : σ → FileInfo → Option GoError × σ) : Visitor σ :=
  fun info dvc s => .ret ((f s info).1, dvc, (f s info).2)

/-- The calls of `f` on the entries in order, up to and including the first
entry on which it returns an error: that error, or none, and the state after
the last call made. -/
def foldUntil {σ : Type} (f : σ → FileInfo → Option GoError × σ) :
    List FileInfo → σ → Option GoError × σ
  | [], s => (none, s)
  | info :: rest, s =>
    match f s info with
    | (some e, s1) => (some e, s1)
    | (none, s1) => foldUntil f rest s1

/-- The visitor function that keeps the list of the entries it is called on
and returns the error `stop` on the entry with the path `path`. -/
def failOn (path : Str) (seen : List FileInfo) (info : FileInfo) :
    Option GoError × List FileInfo :=
  (if info.Path = path then some (.new "stop".data) else none, seen ++ [info])

/-- The visitor is called on the entries in order and returns nil on each of
them: the device and the state after the last call.  Nothing when a call
returns an error or does not return. -/
def callsOk {σ : Type} (fn : Visitor σ) : List FileInfo → Device → σ → Option (Device × σ)
  | [], dvc, s => some (dvc, s)
  | info :: rest, dvc, s =>
    match fn info dvc s with
    | .ret (none, dvc1, s1) => callsOk fn rest dvc1 s1
    | _ => none

/-- In the walk of `dir` the visitor returns the error `e` on some entry,
leaving the device `dF` and the state `sF`.  Either the entry is in the listing
of `dir` (`here`): the listing is served, the visitor returns nil on the
entries before it and `e` on it.  Or it is further down (`deeper`): the listing
is served, the visitor returns nil on all of it, the walks of the
subdirectories before `sub` return nil, and the visitor returns `e` on some
entry in the walk of `sub`. -/
inductive Device.VisitorFails {σ : Type} (fn : Visitor σ) :
    Device → Str → σ → GoError → Device → σ → Prop
  | here (dvc : Device) (dir : Str) (s : σ) (e : GoError) (dF : Device) (sF : σ)
      (items pre post : List FileInfo) (info : FileInfo) (d0 d1 : Device) (s1 : σ) :
      dvc.Ls dir = .ret ((items, none), d0) →
      items = pre ++ info :: post →
      callsOk fn pre d0 s = some (d1, s1) →
      fn info d1 s1 = .ret (some e, dF, sF) →
      Device.VisitorFails fn dvc dir s e dF sF
  | deeper (dvc : Device) (dir : Str) (s : σ) (e : GoError) (dF : Device) (sF : σ)
      (items pre post : List FileInfo) (sub : FileInfo) (d0 d1 d2 : Device) (s1 s2 : σ)
      (k : Nat) :
      dvc.Ls dir = .ret ((items, none), d0) →
      callsOk fn items d0 s = some (d1, s1) →
      items.filter (fun i => i.IsDir) = pre ++ sub :: post →
      walkDirs (Device.Walk fn k) pre d1 s1 = .ret (none, d2, s2) →
      Device.VisitorFails fn d2 sub.Path s2 e dF sF →
      Device.VisitorFails fn dvc dir s e dF sF

/-- The visitor `fn` under observation: it does what `fn` does and keeps the
record of `Traced`. -/
def traced {σ : Type} (fn : Visitor σ) : Visitor (Traced σ) :=
  fun info dvc t =>
    match fn info dvc t.state with
    | .ret (err, dvc1, s1) =>
      .ret (err, dvc1,
        { state := s1,
          failed := if t.failed.isSome then t.failed else err.map (fun e => (e, dvc1)),
          late := if t.failed.isSome then t.late + 1 else t.late })
    | .panic => .panic
    | .hang => .hang
    | .outOfFuel => .outOfFuel

/-- Read number `k` (from 0) is one at which the specification ends the read
loop, for a loop that has `started` set when it begins: a byte has been
received (`started`, or some read up to and including `k` delivered one) and
read `k` delivered nothing or failed. -/
def stopsFrom (started : Bool) (rs : List ReadResult) (k : Nat) : Bool :=
  (started || (rs.take (k + 1)).any (fun r => decide (r.data.length > 0))) &&
    match rs.get? k with
    | some r => r.err.isSome || r.data.length == 0
    | none => false

/-- Read number `k` (from 0) is one at which the specification ends the read
loop: some read up to and including it delivered a byte, and it delivered
nothing or failed. -/
def stopsAt (rs : List ReadResult) (k : Nat) : Bool := stopsFrom false rs k

/-- The device after a run of calls, `some cmd` for `Request(cmd)` and `none`
for `Close()`. -/
def Device.thenDo : Device → List (Option Str) → Outcome Device
  | dvc, [] => .ret dvc
  | dvc, none :: rest => Device.thenDo dvc.Close.2 rest
  | dvc, some cmd :: rest =>
    match dvc.Request cmd with
    | .ret (_, dvc1) => Device.thenDo dvc1 rest
    | .panic => .panic
    | .hang => .hang
    | .outOfFuel => .outOfFuel

/-! ## Lemmas on the library functions -/

theorem strings.Contains_iff (s sub : Str) : strings.Contains s sub = true ↔ sub <:+: s := by
  induction s with
  | nil => simp [strings.Contains, List.isPrefixOf_iff_prefix]
  | cons c cs ih =>
    simp only [strings.Contains, Bool.or_eq_true, ih, List.isPrefixOf_iff_prefix]
    exact List.infix_cons_iff.symm

theorem strings.HasPrefix_iff (s p : Str) : strings.HasPrefix s p = true ↔ p <+: s := by
  simp [strings.HasPrefix, List.isPrefixOf_iff_prefix]

/-! ## Lemmas on decimal numbers -/

theorem digitChar_spec :
    ∀ d, d < 10 → (Nat.digitChar d).isDigit = true ∧ (Nat.digitChar d).toNat - 48 = d := by
  decide

theorem toDigitsCore_succ (fuel n : Nat) (acc : Str) :
    Nat.toDigitsCore 10 (fuel + 1) n acc =
      if n / 10 = 0 then Nat.digitChar (n % 10) :: acc
      else Nat.toDigitsCore 10 fuel (n / 10) (Nat.digitChar (n % 10) :: acc) := by
  rw [Nat.toDigitsCore]

theorem toDigitsCore_ne_nil (fuel n : Nat) (acc : Str) :
    Nat.toDigitsCore 10 (fuel + 1) n acc ≠ [] := by
  induction fuel generalizing n acc with
  | zero =>
    rw [toDigitsCore_succ]
    split <;> simp [Nat.toDigitsCore]
  | succ k ih =>
    rw [toDigitsCore_succ]
    split
    · simp
    · exact ih _ _

theorem toDigitsCore_digits (fuel n : Nat) (acc : Str) :
    ∀ c ∈ Nat.toDigitsCore 10 fuel n acc, c.isDigit = true ∨ c ∈ acc := by
  induction fuel generalizing n acc with
  | zero => intro c hc; right; simpa [Nat.toDigitsCore] using hc
  | succ k ih =>
    intro c hc
    rw [toDigitsCore_succ] at hc
    have hd := (digitChar_spec (n % 10) (Nat.mod_lt _ (by decide))).1
    split at hc
    · rcases List.mem_cons.1 hc with rfl | h
      · exact Or.inl hd
      · exact Or.inr h
    · rcases ih _ _ c hc with h | h
      · exact Or.inl h
      · rcases List.mem_cons.1 h with rfl | h
        · exact Or.inl hd
        · exact Or.inr h

theorem toDigits_digits (n : Nat) : ∀ c ∈ Nat.toDigits 10 n, c.isDigit = true := by
  intro c hc
  rcases toDigitsCore_digits (n + 1) n [] c hc with h | h
  · exact h
  · cases h

theorem toDigits_ne_nil (n : Nat) : Nat.toDigits 10 n ≠ [] := toDigitsCore_ne_nil n n []

theorem parseUintLoop_toDigitsCore (fuel n : Nat) (acc : Str) (hf : n < fuel)
    (hn : n ≤ strconv.maxUint64) :
    strconv.parseUintLoop (Nat.toDigitsCore 10 fuel n acc) 0 = strconv.parseUintLoop acc n := by
  induction fuel generalizing n acc with
  | zero => omega
  | succ k ih =>
    rw [toDigitsCore_succ]
    obtain ⟨hd, hv⟩ := digitChar_spec (n % 10) (Nat.mod_lt _ (by decide))
    have hmax : strconv.maxUint64 = 18446744073709551615 := by decide
    split
    · rename_i h0
      have hn10 : n % 10 = n := by omega
      simp only [strconv.parseUintLoop, hd, hv, Bool.not_true, Bool.false_eq_true, if_false]
      rw [if_neg (by rw [hmax]; omega), if_neg (by rw [hmax]; omega)]
      congr 1
      omega
    · rename_i h0
      rw [ih (n / 10) _ (by omega) (by omega)]
      simp only [strconv.parseUintLoop, hd, hv, Bool.not_true, Bool.false_eq_true, if_false]
      rw [if_neg (by rw [hmax]; omega), if_neg (by rw [hmax]; omega)]
      congr 1
      omega

/-- Go `strconv.Atoi` reads back the decimal digits of a number below `2 ^ 63`. -/
theorem Atoi_toDigits (n : Nat) (hn : n < 2 ^ 63) :
    strconv.Atoi (Nat.toDigits 10 n) = ((n : Int), none) := by
  have hp : strconv.parseUintLoop (Nat.toDigits 10 n) 0 = .ok n := by
    have := parseUintLoop_toDigitsCore (n + 1) n [] (by omega)
      (by have : strconv.maxUint64 = 18446744073709551615 := by decide
          omega)
    simpa [Nat.toDigits, strconv.parseUintLoop] using this
  have hne := toDigits_ne_nil n
  have hdig := toDigits_digits n
  cases hs : Nat.toDigits 10 n with
  | nil => exact absurd hs hne
  | cons c cs =>
    have hc : c.isDigit = true := hdig c (by rw [hs]; exact List.mem_cons_self _ _)
    have h1 : c ≠ '+' := by rintro rfl; exact absurd hc (by decide)
    have h2 : c ≠ '-' := by rintro rfl; exact absurd hc (by decide)
    rw [hs] at hp
    simp only [strconv.Atoi, strconv.parseInt64, List.head?_cons, Option.some.injEq, h1, h2,
      or_self, if_false, hp]
    simp
    omega

theorem strings.TrimPrefix_append (p s : Str) : strings.TrimPrefix (p ++ s) p = s := by
  have h : strings.HasPrefix (p ++ s) p = true := by
    rw [strings.HasPrefix_iff]; exact List.prefix_append p s
  simp [strings.TrimPrefix, h]

theorem strings.TrimSuffix_append (s p : Str) : strings.TrimSuffix (s ++ p) p = s := by
  have h : strings.HasSuffix (s ++ p) p = true := by
    simp only [strings.HasSuffix, List.isSuffixOf_iff_suffix]; exact List.suffix_append s p
  simp [strings.TrimSuffix, h]

theorem Atoi_err (s : Str) :
    (strconv.Atoi s).2 = none ∨ ∃ range, (strconv.Atoi s).2 = some (.num "Atoi".data s range) := by
  unfold strconv.Atoi strconv.parseInt64
  simp only []
  repeat' split
  all_goals first
    | exact Or.inl rfl
    | exact Or.inr ⟨false, rfl⟩
    | exact Or.inr ⟨true, rfl⟩

theorem isSpace_of_isDigit (c : Char) (h : c.isDigit = true) : strings.isSpace c = false := by
  have h1 : 48 ≤ c.toNat ∧ c.toNat ≤ 57 := by
    simp only [Char.isDigit, Bool.and_eq_true, decide_eq_true_eq] at h
    exact ⟨h.1, h.2⟩
  simp only [strings.isSpace, Bool.or_eq_false_iff, Bool.and_eq_false_imp, decide_eq_true_eq,
    beq_eq_false_iff_ne, ne_eq, decide_eq_false_iff_not]
  omega

theorem strings.TrimSpace_of_ends (a z : Char) (m : Str) (ha : strings.isSpace a = false)
    (hz : strings.isSpace z = false) :
    strings.TrimSpace (a :: (m ++ [z])) = a :: (m ++ [z]) := by
  unfold strings.TrimSpace
  rw [List.dropWhile_cons_of_neg (by simp [ha]), ← List.cons_append,
    List.rdropWhile_concat_neg _ _ _ (by simp [hz])]

theorem strings.splitLoop_no_sep (c : Char) (ys acc : Str) (hy : c ∉ ys) :
    strings.splitLoop [c] 0 ys acc = [acc.reverse ++ ys] := by
  induction ys generalizing acc with
  | nil => simp [strings.splitLoop]
  | cons y ys ih =>
    have hne : c ≠ y := fun h => hy (h ▸ List.mem_cons_self _ _)
    have hy2 : c ∉ ys := fun h => hy (List.mem_cons_of_mem _ h)
    rw [strings.splitLoop]
    simp only [List.isPrefixOf, beq_iff_eq, hne, Bool.false_and, Bool.false_eq_true, if_false]
    rw [ih _ hy2]
    simp [hne]

theorem strings.splitLoop_one_sep (c : Char) (xs ys acc : Str) (hx : c ∉ xs) (hy : c ∉ ys) :
    strings.splitLoop [c] 0 (xs ++ c :: ys) acc = [acc.reverse ++ xs, ys] := by
  induction xs generalizing acc with
  | nil =>
    rw [List.nil_append, strings.splitLoop]
    simp only [List.isPrefixOf, beq_self_eq_true, Bool.true_and, if_true, List.length_singleton,
      Nat.sub_self]
    rw [strings.splitLoop_no_sep c ys [] hy]
    simp
  | cons x xs ih =>
    have hne : c ≠ x := fun h => hx (h ▸ List.mem_cons_self _ _)
    have hx2 : c ∉ xs := fun h => hx (List.mem_cons_of_mem _ h)
    rw [List.cons_append, strings.splitLoop]
    simp only [List.isPrefixOf, beq_iff_eq, hne, Bool.false_and, Bool.false_eq_true, if_false]
    rw [ih _ hx2]
    simp [hne]

theorem strings.Split_one_sep (c : Char) (xs ys : Str) (hx : c ∉ xs) (hy : c ∉ ys) :
    strings.Split (xs ++ c :: ys) [c] = [xs, ys] := by
  simp [strings.Split, strings.splitLoop_one_sep c xs ys [] hx hy]

theorem strings.splitLoop_append_sep (c : Char) (xs ys acc : Str) (hy : c ∉ ys) :
    strings.splitLoop [c] 0 (xs ++ c :: ys) acc = strings.splitLoop [c] 0 xs acc ++ [ys] := by
  induction xs generalizing acc with
  | nil =>
    simp [strings.splitLoop, List.isPrefixOf, strings.splitLoop_no_sep c ys [] hy]
  | cons x xs ih =>
    by_cases hx : c = x
    · subst hx
      simp [strings.splitLoop, List.isPrefixOf, ih]
    · simp [strings.splitLoop, List.isPrefixOf, hx, ih]

theorem intercalate_concat (sep x : Str) (l : List Str) (hl : l ≠ []) :
    sep.intercalate (l ++ [x]) = sep.intercalate l ++ sep ++ x := by
  induction l with
  | nil => exact absurd rfl hl
  | cons a l ih =>
    cases l with
    | nil => simp [List.intercalate, List.intersperse]
    | cons b l =>
      have h := ih (by simp)
      simp only [List.intercalate, List.cons_append, List.intersperse, List.flatten_cons,
        List.append_assoc, List.append_eq] at h ⊢
      rw [h]

/-- Go `filepath.Join` of a clean rooted directory other than the root and a
plain file name is the directory, a slash and the name. -/
theorem filepath.Join_clean (dir name : Str) (hclean : filepath.Clean dir = dir)
    (hroot : dir.head? = some '/') (hdir : dir ≠ ['/'])
    (hne : name ≠ []) (hslash : '/' ∉ name) (hdot : name ≠ ['.']) (hdots : name ≠ ['.', '.']) :
    filepath.Join [dir, name] = dir ++ '/' :: name := by
  have hd : dir ≠ [] := by
    intro h; rw [h] at hroot; cases hroot
  have hj : filepath.Join [dir, name] = filepath.Clean (dir ++ '/' :: name) := by
    simp [filepath.Join, hd, strings.Join, List.intercalate, List.intersperse]
  rw [hj]
  have hroot2 : (dir ++ '/' :: name).head? = some '/' := by
    cases dir with
    | nil => exact absurd rfl hd
    | cons a as => simpa using hroot
  have hsplit : strings.Split (dir ++ '/' :: name) ['/'] = strings.Split dir ['/'] ++ [name] := by
    simp [strings.Split, strings.splitLoop_append_sep '/' dir name [] hslash]
  have hstep : ∀ stack, filepath.cleanStep true stack name = name :: stack := by
    intro stack
    simp [filepath.cleanStep, hne, hdot, hdots]
  unfold filepath.Clean at hclean ⊢
  simp only [hroot, hroot2, hsplit, List.foldl_append, List.foldl_cons, List.foldl_nil,
    decide_True, hstep, List.reverse_cons, if_true] at hclean ⊢
  generalize List.foldl (filepath.cleanStep true) [] (strings.Split dir ['/']) = stack
    at hclean ⊢
  have hstack : stack.reverse ≠ [] := by
    intro h
    rw [h] at hclean
    simp [strings.Join, List.intercalate, List.intersperse] at hclean
    exact hdir hclean.symm
  simp only [strings.Join] at hclean ⊢
  rw [intercalate_concat _ _ _ hstack]
  simp only [List.cons_ne_nil, if_false] at hclean ⊢
  rw [← hclean]
  simp

/-! ## Lemmas on requests -/

theorem Request_written (dvc : Device) (p : Port) (cmd : Str)
    (r : Str × Option GoError) (d : Device)
    (hp : dvc.Port = some p) (h : dvc.Request cmd = .ret (r, d)) :
    ∃ q, d.Port = some q ∧ q.written = p.written ++ [cmd ++ ['\r']] := by
  unfold Device.Request at h
  rw [hp] at h
  cases hw : p.writeErrs.head?.join with
  | some e =>
    simp only [Port.Write, hw, Outcome.ret.injEq, Prod.mk.injEq] at h
    obtain ⟨-, rfl⟩ := h
    exact ⟨_, rfl, rfl⟩
  | none =>
    cases hd : p.drainErrs.head?.join with
    | some e =>
      simp only [Port.Write, Port.Drain, hw, hd, Outcome.ret.injEq, Prod.mk.injEq] at h
      obtain ⟨-, rfl⟩ := h
      exact ⟨_, rfl, rfl⟩
    | none =>
      simp only [Port.Write, Port.Drain, hw, hd, readUntilNextPrompt] at h
      cases hr : readLoop false [] p.reads with
      | none => simp [hr] at h
      | some br =>
        simp only [hr, Outcome.ret.injEq, Prod.mk.injEq] at h
        obtain ⟨-, rfl⟩ := h
        exact ⟨_, rfl, rfl⟩

theorem Request_wrote (dvc : Device) (p : Port) (cmd : Str) (hp : dvc.Port = some p) :
    (dvc.Request cmd).wrote p.written (cmd ++ ['\r']) := by
  intro a d h
  obtain ⟨q, hq, hw⟩ := Request_written dvc p cmd a d hp h
  exact ⟨q, hq, by rw [hw]⟩

theorem requestErr_wrote (dvc : Device) (p : Port) (cmd : Str) (hp : dvc.Port = some p) :
    (dvc.requestErr cmd).wrote p.written (cmd ++ ['\r']) := by
  intro a d h
  unfold Device.requestErr at h
  cases hr : dvc.Request cmd with
  | ret x =>
    obtain ⟨r, d1⟩ := x
    simp only [hr, Outcome.ret.injEq, Prod.mk.injEq] at h
    obtain ⟨-, rfl⟩ := h
    exact Request_wrote dvc p cmd hp r d1 hr
  | panic => rw [hr] at h; cases h
  | hang => rw [hr] at h; cases h
  | outOfFuel => rw [hr] at h; cases h

theorem Stat_of_Request (dvc : Device) (path : Str) (r : Str × Option GoError) (d : Device)
    (h : dvc.Request ("storage stat ".data ++ path) = .ret (r, d)) :
    dvc.Stat path = .ret (statReply path r, d) := by
  unfold Device.Stat
  rw [h]

theorem Stat_wrote (dvc : Device) (p : Port) (path : Str) (hp : dvc.Port = some p) :
    (dvc.Stat path).wrote p.written ("storage stat ".data ++ path ++ ['\r']) := by
  intro a d h
  unfold Device.Stat at h
  cases hr : dvc.Request ("storage stat ".data ++ path) with
  | ret x =>
    obtain ⟨r, d1⟩ := x
    simp only [hr, Outcome.ret.injEq, Prod.mk.injEq] at h
    obtain ⟨-, rfl⟩ := h
    exact Request_wrote dvc p _ hp r d1 hr
  | panic => rw [hr] at h; cases h
  | hang => rw [hr] at h; cases h
  | outOfFuel => rw [hr] at h; cases h

theorem Timestamp_wrote (dvc : Device) (p : Port) (path : Str) (hp : dvc.Port = some p) :
    (dvc.Timestamp path).wrote p.written ("storage timestamp ".data ++ path ++ ['\r']) := by
  intro a d h
  unfold Device.Timestamp at h
  cases hr : dvc.Request ("storage timestamp ".data ++ path) with
  | ret x =>
    obtain ⟨⟨resp, err⟩, d1⟩ := x
    cases err with
    | none =>
      simp only [hr, Outcome.ret.injEq, Prod.mk.injEq] at h
      obtain ⟨-, rfl⟩ := h
      exact Request_wrote dvc p _ hp _ d1 hr
    | some e =>
      simp only [hr, Outcome.ret.injEq, Prod.mk.injEq] at h
      obtain ⟨-, rfl⟩ := h
      exact Request_wrote dvc p _ hp _ d1 hr
  | panic => rw [hr] at h; cases h
  | hang => rw [hr] at h; cases h
  | outOfFuel => rw [hr] at h; cases h

theorem Format_wrote (dvc : Device) (p : Port) (path : Str) (hp : dvc.Port = some p) :
    (dvc.Format path).wrote p.written ("storage format ".data ++ path ++ ['\r']) := by
  intro a d h
  unfold Device.Format at h
  cases hr : dvc.Request ("storage format ".data ++ path) with
  | ret x =>
    obtain ⟨⟨resp, err⟩, d1⟩ := x
    cases err with
    | some e =>
      simp only [hr, Outcome.ret.injEq, Prod.mk.injEq] at h
      obtain ⟨-, rfl⟩ := h
      exact Request_wrote dvc p _ hp _ d1 hr
    | none =>
      simp only [hr] at h
      obtain ⟨q1, hq1, hw1⟩ := Request_written dvc p _ _ d1 hp hr
      obtain ⟨q, hq, hw⟩ := requestErr_wrote d1 q1 _ hq1 a d h
      refine ⟨q, hq, ?_⟩
      rw [hw1] at hw
      exact (List.prefix_append _ _).trans hw
  | panic => rw [hr] at h; cases h
  | hang => rw [hr] at h; cases h
  | outOfFuel => rw [hr] at h; cases h

theorem checkPath_bad (path : Str) (hint : ¬ "/int".data <+: path) (hext : ¬ "/ext".data <+: path) :
    checkPath path = some (.new "path needs to have the prefix /int or /ext".data) := by
  have h1 : strings.HasPrefix path "/int".data = false := by
    rw [← Bool.not_eq_true, strings.HasPrefix_iff]; exact hint
  have h2 : strings.HasPrefix path "/ext".data = false := by
    rw [← Bool.not_eq_true, strings.HasPrefix_iff]; exact hext
  simp [checkPath, h1, h2]

/-! ## C1: the path check -/

/-- C1, the claim as stated fails: `/foo` begins with neither `/int` nor
`/ext`, yet `Rm` on it writes the command line to the port and, the device
answering with a bare prompt, returns a nil error; `Stat`, `Mkdir`, `Copy`,
`Rename`, `Md5`, `StoreInfo`, `Timestamp` and `Format` write their command
lines too. -/
theorem C1_unchecked_path_is_sent :
    checkPath "/foo".data ≠ none ∧
    ((Device.scripted [⟨"\r\n>: ".data, none⟩]).Rm "/foo".data).result = some none ∧
    ((Device.scripted [⟨"\r\n>: ".data, none⟩]).Rm "/foo".data).written
      = ["storage remove /foo\r".data] ∧
    ((Device.scripted [⟨"\r\n>: ".data, none⟩]).Stat "/foo".data).written
      = ["storage stat /foo\r".data] ∧
    ((Device.scripted [⟨"\r\n>: ".data, none⟩]).Mkdir "/foo".data).written
      = ["storage mkdir /foo\r".data] ∧
    ((Device.scripted [⟨"\r\n>: ".data, none⟩]).Copy "/foo".data "/bar".data).written
      = ["storage copy /foo /bar\r".data] ∧
    ((Device.scripted [⟨"\r\n>: ".data, none⟩]).Rename "/foo".data "/bar".data).written
      = ["storage rename /foo /bar\r".data] ∧
    ((Device.scripted [⟨"\r\n>: ".data, none⟩]).Md5 "/foo".data).written
      = ["storage md5 /foo\r".data] ∧
    ((Device.scripted [⟨"\r\n>: ".data, none⟩]).StoreInfo "/foo".data).written
      = ["storage info /foo\r".data] ∧
    ((Device.scripted [⟨"\r\n>: ".data, none⟩]).Timestamp "/foo".data).written
      = ["storage timestamp /foo\r".data] ∧
    ((Device.scripted [⟨"\r\n>: ".data, none⟩, ⟨[], none⟩, ⟨"\r\n>: ".data, none⟩]).Format
        "/foo".data).written
      = ["storage format /foo\r".data, "y\r".data] := by
  decide

/-- C1, amended: for a path that begins with neither `/int` nor `/ext`,
`MkdirAll` and `Ls` return the path error and leave the device, its port log
included, as it was; `Stat`, `Mkdir`, `Rm`, `Copy`, `Rename`, `Md5`,
`StoreInfo`, `Timestamp` and `Format` make no local check: whenever one of them
returns on a connected device it has written its command line to the port. -/
theorem C1_path_check_only_in_MkdirAll_and_Ls (dvc : Device) (path : Str)
    (hint : ¬ "/int".data <+: path) (hext : ¬ "/ext".data <+: path) :
    dvc.MkdirAll path
      = .ret (some (.new "path needs to have the prefix /int or /ext".data), dvc) ∧
    dvc.Ls path
      = .ret (([], some (.new "path needs to have the prefix /int or /ext".data)), dvc) ∧
    ∀ p, dvc.Port = some p →
      (dvc.Stat path).wrote p.written ("storage stat ".data ++ path ++ ['\r']) ∧
      (dvc.Mkdir path).wrote p.written ("storage mkdir ".data ++ path ++ ['\r']) ∧
      (dvc.Rm path).wrote p.written ("storage remove ".data ++ path ++ ['\r']) ∧
      (∀ dst, (dvc.Copy path dst).wrote p.written
        ("storage copy ".data ++ path ++ " ".data ++ dst ++ ['\r'])) ∧
      (∀ dst, (dvc.Rename path dst).wrote p.written
        ("storage rename ".data ++ path ++ " ".data ++ dst ++ ['\r'])) ∧
      (dvc.Md5 path).wrote p.written ("storage md5 ".data ++ path ++ ['\r']) ∧
      (dvc.StoreInfo path).wrote p.written ("storage info ".data ++ path ++ ['\r']) ∧
      (dvc.Timestamp path).wrote p.written ("storage timestamp ".data ++ path ++ ['\r']) ∧
      (dvc.Format path).wrote p.written ("storage format ".data ++ path ++ ['\r']) := by
  have hc := checkPath_bad path hint hext
  refine ⟨by simp [Device.MkdirAll, hc], by simp [Device.Ls, hc], ?_⟩
  intro p hp
  exact ⟨Stat_wrote dvc p path hp, requestErr_wrote dvc p _ hp, requestErr_wrote dvc p _ hp,
    fun dst => requestErr_wrote dvc p _ hp, fun dst => requestErr_wrote dvc p _ hp,
    Request_wrote dvc p _ hp, Request_wrote dvc p _ hp, Timestamp_wrote dvc p path hp,
    Format_wrote dvc p path hp⟩

/-- C1, the amended claim at the path `/foo` on a connected device. -/
theorem C1_path_check_witness :
    (¬ "/int".data <+: "/foo".data) ∧ (¬ "/ext".data <+: "/foo".data) ∧
    (Device.scripted []).MkdirAll "/foo".data
      = .ret (some (.new "path needs to have the prefix /int or /ext".data),
          Device.scripted []) ∧
    (Device.scripted []).Ls "/foo".data
      = .ret (([], some (.new "path needs to have the prefix /int or /ext".data)),
          Device.scripted []) :=
  ⟨by decide, by decide,
    (C1_path_check_only_in_MkdirAll_and_Ls (Device.scripted []) "/foo".data
      (by decide) (by decide)).1,
    (C1_path_check_only_in_MkdirAll_and_Ls (Device.scripted []) "/foo".data
      (by decide) (by decide)).2.1⟩

/-! ## C2: the size of a download -/

set_option maxRecDepth 4000 in
/-- C2, the claim as stated fails: `stat` reports 3 bytes and the first chunk
reply carries `hello`; the loop ends because 5 is not below 3, `Read` returns
nil, and the local file holds 5 bytes. -/
theorem C2_download_longer_than_size :
    ((Device.scripted [⟨"storage stat /ext/a\r\nFile, size: 3b\r\n\r\n>: ".data, none⟩,
        ⟨[], none⟩,
        ⟨"storage read_chunks /ext/a 8192\r\nSize: 3\r\nReady?\r\n>: ".data, none⟩,
        ⟨[], none⟩,
        ⟨"y\r\nhello\r\n>: ".data, none⟩]).Stat "/ext/a".data).result
      = some ({ Path := "/ext/a".data, IsPlain := true, Size := 3 }, none) ∧
    Device.Read 3
      (Device.scripted [⟨"storage stat /ext/a\r\nFile, size: 3b\r\n\r\n>: ".data, none⟩,
        ⟨[], none⟩,
        ⟨"storage read_chunks /ext/a 8192\r\nSize: 3\r\nReady?\r\n>: ".data, none⟩,
        ⟨[], none⟩,
        ⟨"y\r\nhello\r\n>: ".data, none⟩])
      ⟨[], [], [], []⟩ "/ext/a".data "out".data
      = .ret (none,
          Device.logged []
            ["storage stat /ext/a\r".data, "storage read_chunks /ext/a 8192\r".data, "y\r".data],
          ⟨[("out/a".data, "hello".data)], [], [], [("out/a".data, "hello".data)]⟩) := by
  decide

theorem content_appendTo (path b : Str) (files : List (Str × Str)) (fl : List (Option GoError))
    (wf : List (Option (Nat × GoError))) (wr : List (Str × Str)) :
    LocalFS.content ⟨appendTo path b files, fl, wf, wr⟩ path
      = LocalFS.content ⟨files, [], [], []⟩ path ++ b := by
  induction files with
  | nil => simp [LocalFS.content, appendTo]
  | cons f rest ih =>
    by_cases hf : (f.1 == path) = true
    · simp [LocalFS.content, appendTo, hf, List.find?]
    · simp only [LocalFS.content] at ih
      simp [LocalFS.content, appendTo, hf, List.find?, ih]

theorem content_files (fs : LocalFS) (path : Str) :
    fs.content path = LocalFS.content ⟨fs.files, [], [], []⟩ path := rfl

theorem dropLast_flatten_cons (c : Str) (chunks : List Str) (h : chunks ≠ []) :
    ((c :: chunks).dropLast.flatten.length : Int)
      = (c.length : Int) + (chunks.dropLast.flatten.length : Int) := by
  cases chunks with
  | nil => exact absurd rfl h
  | cons d ds => simp [List.dropLast]

/-- The chunk loop, when it returns without error from a file that holds
`readSize` bytes: `chunks` are the payloads of its `Write` calls, in order, as
the log of the file system shows; the file has grown by them and holds at
least `size` bytes; there is no write when `readSize` is not below `size`, and
otherwise the bytes held before the last write are fewer than `size`. -/
theorem readChunks_size (out : Str) (size : Int) (fuel : Nat) (readSize : Int)
    (dvc dF : Device) (fs fsF : LocalFS)
    (hinv : ((fs.content out).length : Int) = readSize)
    (h : readChunks out size fuel readSize dvc fs = .ret (none, dF, fsF)) :
    ∃ chunks : List Str,
      fsF.written = fs.written ++ chunks.map (fun c => (out, c)) ∧
      fsF.content out = fs.content out ++ chunks.flatten ∧
      size ≤ ((fsF.content out).length : Int) ∧
      (¬ readSize < size → chunks = []) ∧
      (readSize < size →
        chunks ≠ [] ∧ readSize + (chunks.dropLast.flatten.length : Int) < size) := by
  induction fuel generalizing readSize dvc fs with
  | zero => simp [readChunks] at h
  | succ k ih =>
    rw [readChunks] at h
    by_cases hlt : readSize < size
    · simp only [hlt, if_true] at h
      cases hr : dvc.Request "y".data with
      | ret x =>
        obtain ⟨⟨byteData, err⟩, dvc1⟩ := x
        rw [hr] at h
        cases err with
        | some e => simp at h
        | none =>
          simp only [] at h
          cases hw : fs.writeFaults.head?.join with
          | some ke =>
            obtain ⟨kk, e⟩ := ke
            simp only [LocalFS.Write, hw] at h
            simp at h
          | none =>
            simp only [LocalFS.Write, hw] at h
            have hc : LocalFS.content
                ⟨appendTo out (strings.TrimRight byteData (cliEOL ++ "Ready?".data)) fs.files,
                  fs.faults, fs.writeFaults.tail,
                  fs.written ++ [(out, strings.TrimRight byteData (cliEOL ++ "Ready?".data))]⟩
                  out
                = fs.content out ++ strings.TrimRight byteData (cliEOL ++ "Ready?".data) := by
              rw [content_appendTo, ← content_files]
            obtain ⟨chunks, hwr, hcont, hsz, hnone, hsome⟩ := ih _ _ _
              (by rw [hc, List.length_append, Nat.cast_add, hinv]) h
            refine ⟨strings.TrimRight byteData (cliEOL ++ "Ready?".data) :: chunks,
              ?_, ?_, hsz, fun hn => absurd hlt hn, fun _ => ⟨by simp, ?_⟩⟩
            · rw [hwr]; simp
            · rw [hcont, hc]; simp
            · by_cases hlt2 : readSize +
                  ((strings.TrimRight byteData (cliEOL ++ "Ready?".data)).length : Int) < size
              · obtain ⟨hne, hb⟩ := hsome hlt2
                rw [dropLast_flatten_cons _ _ hne]
                have hd : ((strings.TrimRight byteData
                      (cliEOL ++ ['R', 'e', 'a', 'd', 'y', '?'])).length : Int)
                    = ((strings.TrimRight byteData (cliEOL ++ "Ready?".data)).length : Int) :=
                  rfl
                omega
              · rw [hnone hlt2]
                simpa using hlt
      | panic => rw [hr] at h; cases h
      | hang => rw [hr] at h; cases h
      | outOfFuel => rw [hr] at h; cases h
    · simp only [hlt, if_false, LocalFS.call, Outcome.ret.injEq, Prod.mk.injEq] at h
      obtain ⟨-, -, rfl⟩ := h
      refine ⟨[], by simp, by simp [LocalFS.content], ?_, fun _ => rfl, fun hn => absurd hn hlt⟩
      rw [content_files] at hinv ⊢
      simp only [] at hinv ⊢
      omega

theorem OpenFile_fresh (fs fs2 : LocalFS) (out : Str) (h : fs.OpenFile out = (none, fs2)) :
    fs2.content out = [] ∧ fs2.written = fs.written := by
  unfold LocalFS.OpenFile at h
  split at h
  · simp at h
  · split at h
    · simp at h
    · simp only [Prod.mk.injEq, true_and] at h
      subst h
      simp [LocalFS.content, List.find?]

/-- C2, amended: in a single-file download in which `stat` reports the size
`N`, if `Read` returns without error then the number of bytes written to the
local file is at least `N`.  With `chunks` the payloads of the `Write` calls of
the download, in order, as the log of the file system shows: the file holds
them one after the other; there is no write when `N` is not positive, and
otherwise the bytes of all the writes before the last one are fewer than
`N`. -/
theorem C2_download_at_least_size (fuel : Nat) (dvc d1 dF : Device) (fs fsF : LocalFS)
    (src dst : Str) (info : FileInfo)
    (hstat : dvc.Stat src = .ret ((info, none), d1)) (hfile : info.IsDir = false)
    (h : Device.Read fuel dvc fs src dst = .ret (none, dF, fsF)) :
    info.Size ≤ ((fsF.content (filepath.Join [dst, filepath.Base src])).length : Int) ∧
    ∃ chunks : List Str,
      fsF.written
        = fs.written ++ chunks.map (fun c => (filepath.Join [dst, filepath.Base src], c)) ∧
      fsF.content (filepath.Join [dst, filepath.Base src]) = chunks.flatten ∧
      (info.Size ≤ 0 → chunks = []) ∧
      (0 < info.Size →
        chunks ≠ [] ∧ (chunks.dropLast.flatten.length : Int) < info.Size) := by
  cases fuel with
  | zero => simp [Device.Read] at h
  | succ k =>
    rw [Device.Read, hstat] at h
    simp only [hfile, Bool.false_eq_true, if_false] at h
    cases hc : fs.call with
    | mk e1 fs1 =>
      rw [hc] at h
      have hw1 : fs1.written = fs.written := by
        simp only [LocalFS.call, Prod.mk.injEq] at hc
        rw [← hc.2]
      cases e1 with
      | some e => simp at h
      | none =>
        simp only [] at h
        cases ho : fs1.OpenFile (filepath.Join [dst, filepath.Base src]) with
        | mk e2 fs2 =>
          rw [ho] at h
          cases e2 with
          | some e => simp at h
          | none =>
            simp only [] at h
            obtain ⟨hfresh, hw2⟩ := OpenFile_fresh fs1 fs2 _ ho
            cases hr : d1.Request ("storage read_chunks ".data ++ src ++ " ".data ++
                fmtInt d1.ChunkSize) with
            | ret x =>
              obtain ⟨⟨resp, err⟩, dvc2⟩ := x
              rw [hr] at h
              cases err with
              | some e => simp at h
              | none =>
                simp only [] at h
                split at h
                · simp at h
                · obtain ⟨chunks, hwr, hcont, hsz, hnone, hsome⟩ :=
                    readChunks_size _ _ k 0 dvc2 dF fs2 fsF (by simp [hfresh]) h
                  refine ⟨hsz, chunks, by rw [hwr, hw2, hw1], by rw [hcont, hfresh]; simp,
                    fun hn => hnone (by omega), fun hp => ?_⟩
                  obtain ⟨hne, hb⟩ := hsome hp
                  exact ⟨hne, by omega⟩
            | panic => rw [hr] at h; cases h
            | hang => rw [hr] at h; cases h
            | outOfFuel => rw [hr] at h; cases h

set_option maxRecDepth 8000 in
/-- C2, the amended claim on a download of 5 bytes delivered in the two chunks
`hel` and `lo!`: the file holds 6 bytes, and the 3 bytes written before the
last chunk are fewer than 5. -/
theorem C2_download_at_least_size_witness :
    (Device.scripted [⟨"storage stat /ext/a\r\nFile, size: 5b\r\n\r\n>: ".data, none⟩,
        ⟨[], none⟩,
        ⟨"storage read_chunks /ext/a 8192\r\nSize: 5\r\nReady?\r\n>: ".data, none⟩,
        ⟨[], none⟩, ⟨"y\r\nhel\r\n>: ".data, none⟩, ⟨[], none⟩,
        ⟨"y\r\nlo!\r\n>: ".data, none⟩]).Stat "/ext/a".data
      = .ret (({ Path := "/ext/a".data, IsPlain := true, Size := 5 }, none),
          Device.logged [⟨"storage read_chunks /ext/a 8192\r\nSize: 5\r\nReady?\r\n>: ".data, none⟩,
            ⟨[], none⟩, ⟨"y\r\nhel\r\n>: ".data, none⟩, ⟨[], none⟩,
            ⟨"y\r\nlo!\r\n>: ".data, none⟩] ["storage stat /ext/a\r".data]) ∧
    Device.Read 4
      (Device.scripted [⟨"storage stat /ext/a\r\nFile, size: 5b\r\n\r\n>: ".data, none⟩,
        ⟨[], none⟩,
        ⟨"storage read_chunks /ext/a 8192\r\nSize: 5\r\nReady?\r\n>: ".data, none⟩,
        ⟨[], none⟩, ⟨"y\r\nhel\r\n>: ".data, none⟩, ⟨[], none⟩,
        ⟨"y\r\nlo!\r\n>: ".data, none⟩])
      ⟨[], [], [], []⟩ "/ext/a".data "out".data
      = .ret (none,
          Device.logged []
            ["storage stat /ext/a\r".data, "storage read_chunks /ext/a 8192\r".data, "y\r".data,
             "y\r".data],
          ⟨[("out/a".data, "hello!".data)], [], [],
            [("out/a".data, "hel".data), ("out/a".data, "lo!".data)]⟩) ∧
    (5 : Int) ≤ ((LocalFS.content
      ⟨[("out/a".data, "hello!".data)], [], [],
        [("out/a".data, "hel".data), ("out/a".data, "lo!".data)]⟩
      (filepath.Join ["out".data, filepath.Base "/ext/a".data])).length : Int) ∧
    ∃ chunks : List Str,
      [("out/a".data, "hel".data), ("out/a".data, "lo!".data)]
        = [] ++ chunks.map
            (fun c => (filepath.Join ["out".data, filepath.Base "/ext/a".data], c)) ∧
      LocalFS.content
        ⟨[("out/a".data, "hello!".data)], [], [],
          [("out/a".data, "hel".data), ("out/a".data, "lo!".data)]⟩
        (filepath.Join ["out".data, filepath.Base "/ext/a".data]) = chunks.flatten ∧
      ((5 : Int) ≤ 0 → chunks = []) ∧
      ((0 : Int) < 5 → chunks ≠ [] ∧ (chunks.dropLast.flatten.length : Int) < 5) :=
  ⟨by decide, by decide,
    C2_download_at_least_size 4
      (Device.scripted [⟨"storage stat /ext/a\r\nFile, size: 5b\r\n\r\n>: ".data, none⟩,
        ⟨[], none⟩,
        ⟨"storage read_chunks /ext/a 8192\r\nSize: 5\r\nReady?\r\n>: ".data, none⟩,
        ⟨[], none⟩, ⟨"y\r\nhel\r\n>: ".data, none⟩, ⟨[], none⟩,
        ⟨"y\r\nlo!\r\n>: ".data, none⟩])
      (Device.logged [⟨"storage read_chunks /ext/a 8192\r\nSize: 5\r\nReady?\r\n>: ".data, none⟩,
            ⟨[], none⟩, ⟨"y\r\nhel\r\n>: ".data, none⟩, ⟨[], none⟩,
            ⟨"y\r\nlo!\r\n>: ".data, none⟩] ["storage stat /ext/a\r".data])
      (Device.logged []
        ["storage stat /ext/a\r".data, "storage read_chunks /ext/a 8192\r".data, "y\r".data,
         "y\r".data])
      ⟨[], [], [], []⟩
      ⟨[("out/a".data, "hello!".data)], [], [],
        [("out/a".data, "hel".data), ("out/a".data, "lo!".data)]⟩
      "/ext/a".data "out".data
      { Path := "/ext/a".data, IsPlain := true, Size := 5 } (by decide) rfl (by decide)⟩

/-! ## C3: an upload onto a file that exists -/

set_option maxRecDepth 4000 in
/-- C3, the code at a failing input: the local file holds `abc`, the device
answers the stat of the destination with `File, size: 3b` and the remove with
a bare prompt.  `Write` returns nil after the remove: the port log holds the
stat and the remove command and no `storage write_chunk` line. -/
theorem C3_upload_stops_after_remove :
    ((Device.scripted [⟨"storage stat /ext/a.txt\r\nFile, size: 3b\r\n\r\n>: ".data, none⟩,
        ⟨[], none⟩,
        ⟨"storage remove /ext/a.txt\r\n\r\n>: ".data, none⟩]).Stat "/ext/a.txt".data).result
      = some ({ Path := "/ext/a.txt".data, IsPlain := true, Size := 3 }, none) ∧
    Device.Write Device.demoDisk 5
      (Device.scripted [⟨"storage stat /ext/a.txt\r\nFile, size: 3b\r\n\r\n>: ".data, none⟩,
        ⟨[], none⟩,
        ⟨"storage remove /ext/a.txt\r\n\r\n>: ".data, none⟩])
      "a.txt".data "/ext/a.txt".data
      = .ret (none, Device.logged []
          ["storage stat /ext/a.txt\r".data, "storage remove /ext/a.txt\r".data]) := by
  decide

/-! ## C4, C5: the trims of the framer -/

/-- C4, the code at a failing input: the command `y` is sent and the device
echoes it and goes on with `yellow`; the framer removes every leading character
that occurs in the command line, so the reply comes back as `ellow`, and a text
that does not begin with the command line loses its leading characters too. -/
theorem C4_echo_trim_removes_payload :
    ((Device.scripted [⟨"y\ryellow\r\n>: ".data, none⟩]).Request "y".data).result
      = some ("ellow".data, none) ∧
    trimReply "y\r".data "y\ryellow\r\n>: ".data = "ellow".data ∧
    (¬ "ab\r".data <+: "ba, ab".data) ∧ trimReply "ab\r".data "ba, ab".data = ", ab".data := by
  decide

/-- C5, the code at a failing input: the payload `key: ` is followed by the
end of line and the prompt; the framer removes every trailing character that
occurs in `"\r\n>: "`, so the reply comes back as `key`, and a text that does
not end with the prompt loses its trailing characters too. -/
theorem C5_prompt_trim_removes_payload :
    ((Device.scripted [⟨"y\r\nkey: \r\n>: ".data, none⟩]).Request "y".data).result
      = some ("key".data, none) ∧
    trimReply "y\r".data "y\r\nkey: \r\n>: ".data = "key".data ∧
    (¬ "\r\n>: ".data <:+ "a > b\n".data) ∧ trimReply [] "a > b\n".data = "a > b".data := by
  decide

/-! ## C6: in-band errors -/

theorem frameReply_spec (pfx buffer : Str) :
    ∃ err, frameReply pfx buffer = (trimReply pfx buffer, err) ∧
      (err ≠ none ↔
        ("storage error:".data <:+: strings.ToLower (trimReply pfx buffer) ∨
         "usage:".data <:+: strings.ToLower (trimReply pfx buffer))) ∧
      (∀ e, err = some e → e.Error = trimReply pfx buffer) := by
  by_cases hm : "storage error:".data <:+: strings.ToLower (trimReply pfx buffer) ∨
      "usage:".data <:+: strings.ToLower (trimReply pfx buffer)
  · refine ⟨some (.new (trimReply pfx buffer)), ?_, ?_, ?_⟩
    · have hc : (strings.Contains (strings.ToLower (trimReply pfx buffer)) "storage error:".data ||
          strings.Contains (strings.ToLower (trimReply pfx buffer)) "usage:".data) = true := by
        rw [Bool.or_eq_true, strings.Contains_iff, strings.Contains_iff]; exact hm
      simp only [frameReply, hc, if_true]
    · simp [hm]
    · intro e he
      cases he
      rfl
  · refine ⟨none, ?_, ?_, ?_⟩
    · have hc : (strings.Contains (strings.ToLower (trimReply pfx buffer)) "storage error:".data ||
          strings.Contains (strings.ToLower (trimReply pfx buffer)) "usage:".data) = false := by
        rw [← Bool.not_eq_true, Bool.or_eq_true, strings.Contains_iff, strings.Contains_iff]
        exact hm
      simp only [frameReply, hc]
      rfl
    · simp [hm]
    · intro e he
      cases he

/-- A request on a connected device whose write and drain succeed returns what
the framer makes of the accumulated text. -/
theorem Request_framed (dvc : Device) (p : Port) (cmd buffer : Str) (rest : List ReadResult)
    (hp : dvc.Port = some p) (hw : p.writeErrs.head?.join = none)
    (hd : p.drainErrs.head?.join = none)
    (h : readLoop false [] p.reads = some (buffer, rest)) :
    dvc.Request cmd = .ret (frameReply (cmd ++ ['\r']) buffer,
      { dvc with Port := some { p with reads := rest, writeErrs := p.writeErrs.tail,
                                       drainErrs := p.drainErrs.tail,
                                       written := p.written ++ [cmd ++ ['\r']] } }) := by
  unfold Device.Request
  rw [hp]
  simp only [Port.Write, Port.Drain, hw, hd, readUntilNextPrompt, h]

/-- C6: when the read loop ends with the accumulated text `buffer`, the framer
returns the trimmed text, and it returns an error exactly when the lower-cased
trimmed text contains `storage error:` or `usage:`; the text of that error is
the trimmed text in its original case.  The same holds of a request whose write
and drain succeed. -/
theorem C6_framer_error_iff_marker (p : Port) (buffer : Str) (rest : List ReadResult)
    (h : readLoop false [] p.reads = some (buffer, rest)) :
    (∀ pfx, ∃ err, readUntilNextPrompt p pfx
        = .ret ((trimReply pfx buffer, err), { p with reads := rest }) ∧
      (err ≠ none ↔
        ("storage error:".data <:+: strings.ToLower (trimReply pfx buffer) ∨
         "usage:".data <:+: strings.ToLower (trimReply pfx buffer))) ∧
      (∀ e, err = some e → e.Error = trimReply pfx buffer)) ∧
    (∀ (dvc : Device) (cmd : Str), dvc.Port = some p → p.writeErrs.head?.join = none →
      p.drainErrs.head?.join = none →
      ∃ err, (dvc.Request cmd).result = some (trimReply (cmd ++ ['\r']) buffer, err) ∧
        (err ≠ none ↔
          ("storage error:".data <:+: strings.ToLower (trimReply (cmd ++ ['\r']) buffer) ∨
           "usage:".data <:+: strings.ToLower (trimReply (cmd ++ ['\r']) buffer))) ∧
        (∀ e, err = some e → e.Error = trimReply (cmd ++ ['\r']) buffer)) := by
  constructor
  · intro pfx
    obtain ⟨err, he, h1, h2⟩ := frameReply_spec pfx buffer
    exact ⟨err, by simp only [readUntilNextPrompt, h, he], h1, h2⟩
  · intro dvc cmd hp hw hd
    obtain ⟨err, he, h1, h2⟩ := frameReply_spec (cmd ++ ['\r']) buffer
    refine ⟨err, ?_, h1, h2⟩
    rw [Request_framed dvc p cmd buffer rest hp hw hd h, he]
    rfl

/-- C6 at a port that delivers a firmware error in one read: the framer
returns the text with an error. -/
theorem C6_framer_error_witness :
    readLoop false [] [⟨"Storage Error: no such file\r\n>: ".data, none⟩]
      = some ("Storage Error: no such file\r\n>: ".data, []) ∧
    ∃ err, readUntilNextPrompt
        ⟨[⟨"Storage Error: no such file\r\n>: ".data, none⟩], [], [], none, []⟩ []
        = .ret ((trimReply [] "Storage Error: no such file\r\n>: ".data, err),
            ⟨[], [], [], none, []⟩) ∧
      (err ≠ none ↔
        ("storage error:".data <:+:
            strings.ToLower (trimReply [] "Storage Error: no such file\r\n>: ".data) ∨
         "usage:".data <:+:
            strings.ToLower (trimReply [] "Storage Error: no such file\r\n>: ".data))) ∧
      (∀ e, err = some e → e.Error = trimReply [] "Storage Error: no such file\r\n>: ".data) :=
  ⟨by decide,
    (C6_framer_error_iff_marker
      ⟨[⟨"Storage Error: no such file\r\n>: ".data, none⟩], [], [], none, []⟩
      "Storage Error: no such file\r\n>: ".data [] (by decide)).1 []⟩

/-! ## C7, C8: the outcomes of `Stat` -/

/-- C7, the claim as stated fails: the reply `File, size: 1kb` begins with
`File, `, so `Stat` returns a Plain FileInfo, together with the error of
`strconv.Atoi` on `1k`. -/
theorem C7_plain_with_error :
    ((Device.scripted [⟨"storage stat /ext/a\r\nFile, size: 1kb\r\n\r\n>: ".data, none⟩]).Request
        "storage stat /ext/a".data).result = some ("File, size: 1kb".data, none) ∧
    ((Device.scripted [⟨"storage stat /ext/a\r\nFile, size: 1kb\r\n\r\n>: ".data, none⟩]).Stat
        "/ext/a".data).result
      = some ({ Path := "/ext/a".data, IsPlain := true, Size := 0 },
              some (.num "Atoi".data "1k".data false)) := by
  decide

/-- C7, amended: for a reply that the request returns without error, the
outcome of `Stat` is one of four cases that exclude each other: the Directory
FileInfo of the path with a nil error; a Plain FileInfo of the path with a nil
error; a Plain FileInfo with the error of `strconv.Atoi` (the reply begins
with `File, ` and its size does not parse); or the zero FileInfo with the
error `unknown file info: ` followed by the reply.  No outcome is both
Directory and Plain, none joins Directory to an error, and none is an
unclassified FileInfo with a nil error. -/
theorem C7_Stat_four_outcomes (dvc : Device) (path resp : Str) (d : Device)
    (h : dvc.Request ("storage stat ".data ++ path) = .ret ((resp, none), d)) :
    ∃ info err, dvc.Stat path = .ret ((info, err), d) ∧
      ((info = { Path := path, IsDir := true } ∧ err = none) ∨
       (info.IsDir = false ∧ info.IsPlain = true ∧ info.Path = path ∧ err = none) ∨
       (info.IsDir = false ∧ info.IsPlain = true ∧ info.Path = path ∧
          "File, ".data <+: resp ∧
          ∃ input range, err = some (.num "Atoi".data input range)) ∨
       (info = {} ∧ err = some (.new ("unknown file info: ".data ++ resp)))) ∧
      ¬ (info.IsDir = true ∧ info.IsPlain = true) ∧
      (info.IsDir = true → err = none) ∧
      (err = none → info.IsDir = true ∨ info.IsPlain = true) := by
  rw [Stat_of_Request dvc path _ d h]
  by_cases hD : strings.HasPrefix resp "Directory".data = true
  · refine ⟨{ Path := path, IsDir := true }, none, ?_, Or.inl ⟨rfl, rfl⟩, ?_, ?_, ?_⟩
    · simp [statReply, hD]
    · simp
    · simp
    · simp
  · by_cases hF : strings.HasPrefix resp "File, ".data = true
    · have hs : statReply path (resp, none) =
          ({ Path := path, IsPlain := true,
             Size := (strconv.Atoi (strings.TrimSuffix
               (strings.TrimPrefix resp "File, size: ".data) "b".data)).1 },
           (strconv.Atoi (strings.TrimSuffix
               (strings.TrimPrefix resp "File, size: ".data) "b".data)).2) := by
        simp [statReply, hD, hF]
      refine ⟨_, _, by rw [hs], ?_, by simp, by simp, by simp⟩
      rcases Atoi_err (strings.TrimSuffix (strings.TrimPrefix resp "File, size: ".data) "b".data)
        with he | ⟨range, he⟩
      · exact Or.inr (Or.inl ⟨rfl, rfl, rfl, he⟩)
      · exact Or.inr (Or.inr (Or.inl
          ⟨rfl, rfl, rfl, (strings.HasPrefix_iff _ _).1 hF, _, range, he⟩))
    · refine ⟨{}, some (.new ("unknown file info: ".data ++ resp)), ?_,
        Or.inr (Or.inr (Or.inr ⟨rfl, rfl⟩)), by simp, by simp, by simp⟩
      simp [statReply, hD, hF]

/-- C7, the amended claim on a device that answers `File, size: 42b`. -/
theorem C7_Stat_four_outcomes_witness :
    (Device.scripted [⟨"storage stat /ext/a\r\nFile, size: 42b\r\n\r\n>: ".data, none⟩]).Request
        ("storage stat ".data ++ "/ext/a".data)
      = .ret (("File, size: 42b".data, none), Device.logged [] ["storage stat /ext/a\r".data]) ∧
    ∃ info err,
      (Device.scripted [⟨"storage stat /ext/a\r\nFile, size: 42b\r\n\r\n>: ".data, none⟩]).Stat
          "/ext/a".data
        = .ret ((info, err), Device.logged [] ["storage stat /ext/a\r".data]) ∧
      (err = none → info.IsDir = true ∨ info.IsPlain = true) :=
  ⟨by decide,
    let ⟨info, err, h1, _, _, _, h5⟩ := C7_Stat_four_outcomes
      (Device.scripted [⟨"storage stat /ext/a\r\nFile, size: 42b\r\n\r\n>: ".data, none⟩])
      "/ext/a".data "File, size: 42b".data (Device.logged [] ["storage stat /ext/a\r".data])
      (by decide)
    ⟨info, err, h1, h5⟩⟩

/-- C8, the claim as stated fails: the reply `File, b` begins with neither
`Directory` nor `File, size: `, and `Stat` returns the error of `strconv.Atoi`
on `File, `, whose text does not contain the reply. -/
theorem C8_error_without_raw_reply :
    (¬ "Directory".data <+: "File, b".data) ∧ (¬ "File, size: ".data <+: "File, b".data) ∧
    ((Device.scripted [⟨"storage stat /ext/a\r\nFile, b\r\n\r\n>: ".data, none⟩]).Request
        "storage stat /ext/a".data).result = some ("File, b".data, none) ∧
    ((Device.scripted [⟨"storage stat /ext/a\r\nFile, b\r\n\r\n>: ".data, none⟩]).Stat
        "/ext/a".data).result
      = some ({ Path := "/ext/a".data, IsPlain := true, Size := 0 },
              some (.num "Atoi".data "File, ".data false)) ∧
    (GoError.num "Atoi".data "File, ".data false).Error
      = "strconv.Atoi: parsing \"File, \": invalid syntax".data ∧
    ¬ "File, b".data <:+: (GoError.num "Atoi".data "File, ".data false).Error := by
  decide

/-- C8, amended: for a reply that the request returns without error and every
`n` below `2 ^ 63`: the reply `File, size: ` followed by the decimal digits of
`n` and `b` gives the Plain FileInfo of the path with size `n` and a nil
error; a reply that begins with `Directory` gives the Directory FileInfo of
the path and a nil error; a reply that begins with neither `Directory` nor
`File, ` gives the error `unknown file info: ` followed by the reply, whose
text contains the reply. -/
theorem C8_Stat_by_reply (dvc : Device) (path resp : Str) (d : Device)
    (h : dvc.Request ("storage stat ".data ++ path) = .ret ((resp, none), d)) :
    (∀ n : Nat, n < 2 ^ 63 → resp = "File, size: ".data ++ Nat.toDigits 10 n ++ "b".data →
      dvc.Stat path = .ret (({ Path := path, IsPlain := true, Size := n }, none), d)) ∧
    ("Directory".data <+: resp →
      dvc.Stat path = .ret (({ Path := path, IsDir := true }, none), d)) ∧
    (¬ "Directory".data <+: resp → ¬ "File, ".data <+: resp →
      dvc.Stat path
        = .ret (({}, some (.new ("unknown file info: ".data ++ resp))), d) ∧
      resp <:+: (GoError.new ("unknown file info: ".data ++ resp)).Error) := by
  rw [Stat_of_Request dvc path _ d h]
  refine ⟨?_, ?_, ?_⟩
  · intro n hn hr
    have hD : strings.HasPrefix resp "Directory".data = false := by
      rw [hr]; rfl
    have hF : strings.HasPrefix resp "File, ".data = true := by
      rw [hr]; rfl
    have ht : strings.TrimSuffix (strings.TrimPrefix resp "File, size: ".data) "b".data
        = Nat.toDigits 10 n := by
      rw [hr, List.append_assoc, strings.TrimPrefix_append, strings.TrimSuffix_append]
    simp [statReply, hD, hF, ht, Atoi_toDigits n hn]
  · intro hD
    have hD1 := (strings.HasPrefix_iff _ _).2 hD
    simp [statReply, hD1]
  · intro hD hF
    have hD1 : strings.HasPrefix resp "Directory".data = false := by
      rw [← Bool.not_eq_true, strings.HasPrefix_iff]; exact hD
    have hF1 : strings.HasPrefix resp "File, ".data = false := by
      rw [← Bool.not_eq_true, strings.HasPrefix_iff]; exact hF
    refine ⟨by simp [statReply, hD1, hF1], ?_⟩
    exact (List.suffix_append _ _).isInfix

/-- C8, the amended claim on a device that answers `File, size: 42b`. -/
theorem C8_Stat_by_reply_witness :
    (Device.scripted [⟨"storage stat /ext/a\r\nFile, size: 42b\r\n\r\n>: ".data, none⟩]).Request
        ("storage stat ".data ++ "/ext/a".data)
      = .ret (("File, size: 42b".data, none), Device.logged [] ["storage stat /ext/a\r".data]) ∧
    (Device.scripted [⟨"storage stat /ext/a\r\nFile, size: 42b\r\n\r\n>: ".data, none⟩]).Stat
        "/ext/a".data
      = .ret (({ Path := "/ext/a".data, IsPlain := true, Size := (42 : Nat) }, none),
          Device.logged [] ["storage stat /ext/a\r".data]) :=
  ⟨by decide,
    (C8_Stat_by_reply
      (Device.scripted [⟨"storage stat /ext/a\r\nFile, size: 42b\r\n\r\n>: ".data, none⟩])
      "/ext/a".data "File, size: 42b".data (Device.logged [] ["storage stat /ext/a\r".data])
      (by decide)).1 42 (by norm_num) (by decide)⟩

/-! ## C9: the grouping of a listing -/

theorem lsLoop_dir_line (dir name : Str) (rest : List Str) (dirs plain : List FileInfo)
    (hne : name ≠ []) (hsp : ∀ c ∈ name, strings.isSpace c = false) :
    lsLoop dir (("[D] ".data ++ name) :: rest) dirs plain
      = lsLoop dir rest (dirs ++ [{ IsDir := true, Path := filepath.Join [dir, name] }]) plain := by
  have htrim : strings.TrimSpace ("[D] ".data ++ name) = "[D] ".data ++ name := by
    have hz := hsp _ (List.getLast_mem hne)
    have h := strings.TrimSpace_of_ends '[' (name.getLast hne)
      ('D' :: ']' :: ' ' :: name.dropLast) (by decide) hz
    simp only [List.cons_append, List.dropLast_append_getLast] at h
    exact h
  have hD : strings.HasPrefix ("[D] ".data ++ name) "[D]".data = true := rfl
  rw [lsLoop]
  simp only [htrim, hD, if_true, strings.TrimPrefix_append]

theorem lsLoop_file_line (dir name : Str) (size : Nat) (rest : List Str)
    (dirs plain : List FileInfo)
    (hsp : ∀ c ∈ name, strings.isSpace c = false) (hsize : size < 2 ^ 63) :
    lsLoop dir (("[F] ".data ++ name ++ " ".data ++ Nat.toDigits 10 size ++ "b".data) :: rest)
        dirs plain
      = lsLoop dir rest dirs
          (plain ++ [{ IsPlain := true, Path := filepath.Join [dir, name], Size := size }]) := by
  have hdig := toDigits_digits size
  have htrim : strings.TrimSpace
      ("[F] ".data ++ name ++ " ".data ++ Nat.toDigits 10 size ++ "b".data)
      = "[F] ".data ++ name ++ " ".data ++ Nat.toDigits 10 size ++ "b".data := by
    have h := strings.TrimSpace_of_ends '[' 'b'
      ("F] ".data ++ name ++ " ".data ++ Nat.toDigits 10 size) (by decide) (by decide)
    simpa using h
  have hD : strings.HasPrefix
      ("[F] ".data ++ name ++ " ".data ++ Nat.toDigits 10 size ++ "b".data) "[D]".data
      = false := rfl
  have hF : strings.HasPrefix
      ("[F] ".data ++ name ++ " ".data ++ Nat.toDigits 10 size ++ "b".data) "[F]".data
      = true := rfl
  have hpre : strings.TrimPrefix
      ("[F] ".data ++ name ++ " ".data ++ Nat.toDigits 10 size ++ "b".data) "[F] ".data
      = name ++ ' ' :: (Nat.toDigits 10 size ++ "b".data) := by
    have h := strings.TrimPrefix_append "[F] ".data
      (name ++ ' ' :: (Nat.toDigits 10 size ++ "b".data))
    simpa using h
  have hn1 : ' ' ∉ name := fun h => by
    have := hsp _ h
    exact absurd this (by decide)
  have hn2 : ' ' ∉ Nat.toDigits 10 size ++ "b".data := by
    intro h
    rcases List.mem_append.1 h with h | h
    · exact absurd (hdig _ h) (by decide)
    · exact absurd h (by decide)
  have hsplit := strings.Split_one_sep ' ' name (Nat.toDigits 10 size ++ "b".data) hn1 hn2
  have htrim2 : strings.TrimSpace (Nat.toDigits 10 size ++ "b".data)
      = Nat.toDigits 10 size ++ "b".data := by
    cases hs : Nat.toDigits 10 size with
    | nil => exact absurd hs (toDigits_ne_nil size)
    | cons c cs =>
      have hc : c.isDigit = true := hdig c (by rw [hs]; exact List.mem_cons_self _ _)
      exact strings.TrimSpace_of_ends c 'b' cs (isSpace_of_isDigit c hc) (by decide)
  rw [lsLoop]
  simp only [htrim, hD, hF, hpre, if_true, Bool.false_eq_true, if_false]
  have hs2 : strings.Split (name ++ ' ' :: (Nat.toDigits 10 size ++ "b".data)) " ".data
      = [name, Nat.toDigits 10 size ++ "b".data] := hsplit
  rw [hs2]
  simp only [List.get?, htrim2, strings.TrimSuffix_append, Atoi_toDigits size hsize,
    List.headD_cons]

theorem lsLoop_entries (dir : Str) (entries : List ListEntry) (dirs plain : List FileInfo)
    (hwf : ∀ e ∈ entries,
      e.name ≠ [] ∧ (∀ c ∈ e.name, strings.isSpace c = false) ∧ e.size < 2 ^ 63) :
    lsLoop dir (entries.map ListEntry.line) dirs plain
      = .ret ((dirs ++ entries.filterMap (ListEntry.dirInfo dir)) ++
              (plain ++ entries.filterMap (ListEntry.plainInfo dir)), none) := by
  induction entries generalizing dirs plain with
  | nil => simp [lsLoop]
  | cons e rest ih =>
    have hrest : ∀ e ∈ rest,
        e.name ≠ [] ∧ (∀ c ∈ e.name, strings.isSpace c = false) ∧ e.size < 2 ^ 63 :=
      fun x hx => hwf x (List.mem_cons_of_mem _ hx)
    obtain ⟨h1, h2, h3⟩ := hwf e (List.mem_cons_self _ _)
    cases e with
    | dir name =>
      simp only [List.map_cons, ListEntry.line]
      rw [lsLoop_dir_line dir name _ dirs plain h1 h2, ih _ _ hrest]
      simp [ListEntry.dirInfo, ListEntry.plainInfo]
    | file name size =>
      simp only [List.map_cons, ListEntry.line]
      rw [lsLoop_file_line dir name size _ dirs plain h2 h3, ih _ _ hrest]
      simp [ListEntry.dirInfo, ListEntry.plainInfo]

/-- C9, the claim as stated fails: the size of a `[F]` line is a decimal
number, but `2 ^ 63` does not fit the Go `int`; `Ls` returns the range error
of `strconv.Atoi` and no list.  A name that ends in a tab (no space) loses it,
and the name `..` is resolved by `filepath.Join`, so the path is not the
directory, a slash and the name. -/
theorem C9_size_out_of_range :
    ((Device.scripted
        [⟨"storage list /ext\r\n[F] big 9223372036854775808b\r\n\r\n>: ".data, none⟩]).Request
        "storage list /ext".data).result
      = some ((ListEntry.file "big".data (2 ^ 63)).line, none) ∧
    strings.Split (ListEntry.file "big".data (2 ^ 63)).line cliEOL
      = [ListEntry.file "big".data (2 ^ 63)].map ListEntry.line ∧
    ((Device.scripted
        [⟨"storage list /ext\r\n[F] big 9223372036854775808b\r\n\r\n>: ".data, none⟩]).Ls
        "/ext".data).result
      = some ([], some (.num "Atoi".data "9223372036854775808".data true)) ∧
    ((Device.scripted [⟨"storage list /ext\r\n[D] a\t\r\n\r\n>: ".data, none⟩]).Request
        "storage list /ext".data).result = some ((ListEntry.dir "a\t".data).line, none) ∧
    ((Device.scripted [⟨"storage list /ext\r\n[D] a\t\r\n\r\n>: ".data, none⟩]).Ls
        "/ext".data).result = some ([{ IsDir := true, Path := "/ext/a".data }], none) ∧
    ((Device.scripted [⟨"storage list /ext\r\n[D] ..\r\n\r\n>: ".data, none⟩]).Request
        "storage list /ext".data).result = some ((ListEntry.dir "..".data).line, none) ∧
    ((Device.scripted [⟨"storage list /ext\r\n[D] ..\r\n\r\n>: ".data, none⟩]).Ls
        "/ext".data).result = some ([{ IsDir := true, Path := "/".data }], none) := by
  decide

/-- C9, amended: for a directory `dir` that begins with `/int` or `/ext` and
has no trailing slash, and a reply (returned by the request without error)
whose lines are each `[D] <name>` or `[F] <name> <N>b`, the names non-empty
and free of white space and every `N` below `2 ^ 63`, `Ls` returns with a nil
error the Directory entries of the `[D]` lines in listing order, each with the
path `filepath.Join(dir, name)`, followed by the Plain entries of the `[F]`
lines in listing order, each with that path and the size `N`.  When `dir` is a
clean path and the name has no slash and is neither `.` nor `..`, that path is
`dir`, a slash and the name. -/
theorem C9_Ls_directories_then_files (dvc d : Device) (dir resp : Str)
    (entries : List ListEntry)
    (hdir : "/int".data <+: dir ∨ "/ext".data <+: dir) (hslash : ¬ "/".data <:+ dir)
    (hreq : dvc.Request ("storage list ".data ++ dir) = .ret ((resp, none), d))
    (hlines : strings.Split resp cliEOL = entries.map ListEntry.line)
    (hwf : ∀ e ∈ entries,
      e.name ≠ [] ∧ (∀ c ∈ e.name, strings.isSpace c = false) ∧ e.size < 2 ^ 63) :
    dvc.Ls dir = .ret ((entries.filterMap (ListEntry.dirInfo dir) ++
      entries.filterMap (ListEntry.plainInfo dir), none), d) ∧
    (filepath.Clean dir = dir → ∀ e ∈ entries, '/' ∉ e.name → e.name ≠ ".".data →
      e.name ≠ "..".data → filepath.Join [dir, e.name] = dir ++ "/".data ++ e.name) := by
  have hc : checkPath dir = none := by
    rcases hdir with hp | hp
    · simp [checkPath, (strings.HasPrefix_iff _ _).2 hp]
    · simp [checkPath, (strings.HasPrefix_iff _ _).2 hp]
  have hs : strings.HasSuffix dir "/".data = false := by
    rw [← Bool.not_eq_true]
    simp only [strings.HasSuffix, List.isSuffixOf_iff_suffix]
    exact hslash
  constructor
  · unfold Device.Ls
    simp only [hc, hs, Bool.false_eq_true, if_false]
    rw [hreq]
    simp only [hlines, lsLoop_entries dir entries [] [] hwf, List.nil_append]
  · intro hclean e he h1 h2 h3
    have hroot : dir.head? = some '/' ∧ dir ≠ ['/'] := by
      rcases hdir with ⟨t, ht⟩ | ⟨t, ht⟩ <;> (rw [← ht]; exact ⟨rfl, by simp⟩)
    have h := filepath.Join_clean dir e.name hclean hroot.1 hroot.2 (hwf e he).1 h1 h2 h3
    rw [h]
    simp

set_option maxRecDepth 4000 in
/-- C9 on the listing of the specification: the reply
`[D] foo\r\n[F] bar.txt 120b` to `Ls("/ext")`. -/
theorem C9_Ls_directories_then_files_witness :
    ("/int".data <+: "/ext".data ∨ "/ext".data <+: "/ext".data) ∧ (¬ "/".data <:+ "/ext".data) ∧
    (Device.scripted
        [⟨"storage list /ext\r\n[D] foo\r\n[F] bar.txt 120b\r\n\r\n>: ".data, none⟩]).Ls
        "/ext".data
      = .ret (([{ IsDir := true, Path := "/ext/foo".data },
                { IsPlain := true, Path := "/ext/bar.txt".data, Size := 120 }], none),
          Device.logged [] ["storage list /ext\r".data]) :=
  ⟨by decide, by decide,
    (C9_Ls_directories_then_files
      (Device.scripted
        [⟨"storage list /ext\r\n[D] foo\r\n[F] bar.txt 120b\r\n\r\n>: ".data, none⟩])
      (Device.logged [] ["storage list /ext\r".data]) "/ext".data
      "[D] foo\r\n[F] bar.txt 120b".data
      [ListEntry.dir "foo".data, ListEntry.file "bar.txt".data 120]
      (by decide) (by decide) (by decide) (by decide) (by decide)).1.trans (by decide)⟩

/-! ## C10: `MkdirAll` on directories that exist -/

/-- The loop of `MkdirAll`, when every stat it issues is answered with a
Directory reply: it returns nil and writes the stat command lines only. -/
theorem mkdirAllLoop_all_directories (pathParts : List Str) (idx : List Nat) (dvc d : Device)
    (h : AnswersDirectory dvc (idx.map (fun i => filepath.Join (pathParts.take (i + 1)))) d) :
    mkdirAllLoop pathParts idx dvc = .ret (none, d) ∧
    ∀ p, dvc.Port = some p → ∃ q, d.Port = some q ∧
      q.written = p.written ++
        (idx.map (fun i => filepath.Join (pathParts.take (i + 1)))).map
          (fun name => "storage stat ".data ++ name ++ ['\r']) := by
  induction idx generalizing dvc with
  | nil =>
    simp only [List.map_nil, AnswersDirectory] at h
    subst h
    exact ⟨rfl, fun p hp => ⟨p, hp, by simp⟩⟩
  | cons i rest ih =>
    simp only [List.map_cons, AnswersDirectory] at h
    obtain ⟨resp, dvc1, hreq, hdir, hrest⟩ := h
    obtain ⟨hloop, hlog⟩ := ih dvc1 hrest
    have hstat := Stat_of_Request dvc _ _ dvc1 hreq
    have hD := (strings.HasPrefix_iff _ _).2 hdir
    constructor
    · rw [mkdirAllLoop]
      simp only [hstat, statReply, hD, if_true]
      simpa using hloop
    · intro p hp
      obtain ⟨q1, hq1, hw1⟩ := Request_written dvc p _ _ dvc1 hp hreq
      obtain ⟨q, hq, hw⟩ := hlog q1 hq1
      exact ⟨q, hq, by rw [hw, hw1]; simp⟩

set_option maxRecDepth 8000 in
/-- C10, the code at a failing input: `/ext` and `/ext/a` exist as directories,
but for `/ext/a` the code asks about `ext` and `ext/a`, names without the
leading slash and no prefixes of the path, and the device answers both with a
storage error.  When the device takes the `storage mkdir` commands, `MkdirAll`
returns nil after sending `storage mkdir ext` and `storage mkdir ext/a`; when
it rejects them too, `MkdirAll` returns the storage error after sending
`storage mkdir ext`. -/
theorem C10_MkdirAll_repeats_mkdir :
    checkPath "/ext/a".data = none ∧
    statNames "/ext/a".data = ["ext".data, "ext/a".data] ∧
    ((Device.scripted
        [⟨"storage stat ext\r\nStorage error: invalid name/path\r\n\r\n>: ".data, none⟩,
          ⟨[], none⟩, ⟨"storage mkdir ext\r\n\r\n>: ".data, none⟩, ⟨[], none⟩,
          ⟨"storage stat ext/a\r\nStorage error: invalid name/path\r\n\r\n>: ".data, none⟩,
          ⟨[], none⟩, ⟨"storage mkdir ext/a\r\n\r\n>: ".data, none⟩]).MkdirAll
        "/ext/a".data).result = some none ∧
    ((Device.scripted
        [⟨"storage stat ext\r\nStorage error: invalid name/path\r\n\r\n>: ".data, none⟩,
          ⟨[], none⟩, ⟨"storage mkdir ext\r\n\r\n>: ".data, none⟩, ⟨[], none⟩,
          ⟨"storage stat ext/a\r\nStorage error: invalid name/path\r\n\r\n>: ".data, none⟩,
          ⟨[], none⟩, ⟨"storage mkdir ext/a\r\n\r\n>: ".data, none⟩]).MkdirAll
        "/ext/a".data).written
      = ["storage stat ext\r".data, "storage mkdir ext\r".data,
         "storage stat ext/a\r".data, "storage mkdir ext/a\r".data] ∧
    ((Device.scripted
        [⟨"storage stat ext\r\nStorage error: invalid name/path\r\n\r\n>: ".data, none⟩,
          ⟨[], none⟩,
          ⟨"storage mkdir ext\r\nStorage error: invalid name/path\r\n\r\n>: ".data,
            none⟩]).MkdirAll "/ext/a".data).result
      = some (some (.new "Storage error: invalid name/path".data)) ∧
    ((Device.scripted
        [⟨"storage stat ext\r\nStorage error: invalid name/path\r\n\r\n>: ".data, none⟩,
          ⟨[], none⟩,
          ⟨"storage mkdir ext\r\nStorage error: invalid name/path\r\n\r\n>: ".data,
            none⟩]).MkdirAll "/ext/a".data).written
      = ["storage stat ext\r".data, "storage mkdir ext\r".data] := by
  decide

/-! ## C11: errors of the underlying request -/

set_option maxRecDepth 4000 in
/-- C11, the code at failing inputs: the request of `Stat` fails with the
firmware error of the reply, or with the error of the port write, and `Stat`
returns the zero FileInfo with a nil error; `MkdirAll` on `/ext` returns nil
although the request of its stat failed at the drain. -/
theorem C11_Stat_drops_request_error :
    ((Device.scripted
        [⟨"storage stat /ext/a\r\nStorage error: file/dir not exist\r\n\r\n>: ".data,
          none⟩]).Request "storage stat /ext/a".data).result
      = some ("Storage error: file/dir not exist".data,
          some (.new "Storage error: file/dir not exist".data)) ∧
    ((Device.scripted
        [⟨"storage stat /ext/a\r\nStorage error: file/dir not exist\r\n\r\n>: ".data,
          none⟩]).Stat "/ext/a".data).result
      = some ({}, none) ∧
    (Device.Request
        { PortName := [], Banner := [], ChunkSize := 8192,
          Port := some ⟨[], [some (.io "write failed".data)], [], none, []⟩ }
        "storage stat /ext/a".data).result
      = some ([], some (.io "write failed".data)) ∧
    (Device.Stat
        { PortName := [], Banner := [], ChunkSize := 8192,
          Port := some ⟨[], [some (.io "write failed".data)], [], none, []⟩ }
        "/ext/a".data).result
      = some ({}, none) ∧
    (Device.Request
        { PortName := [], Banner := [], ChunkSize := 8192,
          Port := some ⟨[⟨"\r\n>: ".data, none⟩], [], [some (.io "drain failed".data)],
            none, []⟩ }
        "storage stat ext".data).result
      = some ([], some (.io "drain failed".data)) ∧
    (Device.MkdirAll
        { PortName := [], Banner := [], ChunkSize := 8192,
          Port := some ⟨[⟨"\r\n>: ".data, none⟩], [], [some (.io "drain failed".data)],
            none, []⟩ }
        "/ext".data).result
      = some none := by
  decide

/-! ## C12: the closed device -/

theorem Request_closed (d : Device) (cmd : Str) (h : d.Port = none) :
    d.Request cmd = .ret (([], some (.new "device no longer connected".data)), d) := by
  unfold Device.Request
  simp only [h]

theorem Close_closed (d : Device) (h : d.Port = none) : d.Close = (none, d) := by
  unfold Device.Close
  simp only [h]

theorem Close_port (dvc : Device) : dvc.Close.2.Port = none := by
  unfold Device.Close
  cases h : dvc.Port <;> simp [h]

theorem thenDo_closed (d : Device) (calls : List (Option Str)) (h : d.Port = none) :
    d.thenDo calls = .ret d := by
  induction calls with
  | nil => rfl
  | cons c rest ih =>
    cases c with
    | none => rw [Device.thenDo, Close_closed d h]; exact ih
    | some cmd => rw [Device.thenDo, Request_closed d cmd h]; exact ih

/-- C12: after `Close` the device has no port; every request then returns the
empty text with the error `device no longer connected` and leaves the device
as it is (nothing is written), every further `Close` returns nil and leaves
it as it is, and so it stays after any run of requests and closes. -/
theorem C12_closed_is_absorbing (dvc : Device) :
    dvc.Close.2.Port = none ∧
    (∀ cmd, dvc.Close.2.Request cmd
      = .ret (([], some (.new "device no longer connected".data)), dvc.Close.2)) ∧
    (∀ cmd, (dvc.Close.2.Request cmd).written = []) ∧
    dvc.Close.2.Close = (none, dvc.Close.2) ∧
    (∀ calls, dvc.Close.2.thenDo calls = .ret dvc.Close.2) := by
  have h := Close_port dvc
  refine ⟨h, fun cmd => Request_closed _ cmd h, fun cmd => ?_, Close_closed _ h,
    fun calls => thenDo_closed _ calls h⟩
  rw [Request_closed _ cmd h]
  simp [Outcome.written, h]

/-! ## C13: the range checks of `LED` and `Backlight` -/

theorem LED_wrote (dvc : Device) (p : Port) (r g b : Int) (hp : dvc.Port = some p)
    (hin : ¬ (r < 0 ∨ r > 255 ∨ g < 0 ∨ g > 255 ∨ b < 0 ∨ b > 255)) :
    (dvc.LED r g b).wrote p.written ("led r ".data ++ fmtInt r ++ ['\r']) := by
  intro a d h
  unfold Device.LED at h
  rw [if_neg hin] at h
  cases h1 : dvc.Request ("led r ".data ++ fmtInt r) with
  | ret x =>
    obtain ⟨⟨t1, e1⟩, d1⟩ := x
    obtain ⟨q1, hq1, hw1⟩ := Request_written dvc p _ _ d1 hp h1
    rw [h1] at h
    cases e1 with
    | some e =>
      simp only [Outcome.ret.injEq, Prod.mk.injEq] at h
      obtain ⟨-, rfl⟩ := h
      exact ⟨q1, hq1, by rw [hw1]⟩
    | none =>
      simp only [] at h
      cases h2 : d1.Request ("led g ".data ++ fmtInt g) with
      | ret x =>
        obtain ⟨⟨t2, e2⟩, d2⟩ := x
        obtain ⟨q2, hq2, hw2⟩ := Request_written d1 q1 _ _ d2 hq1 h2
        rw [h2] at h
        cases e2 with
        | some e =>
          simp only [Outcome.ret.injEq, Prod.mk.injEq] at h
          obtain ⟨-, rfl⟩ := h
          exact ⟨q2, hq2, by rw [hw2, hw1]; exact List.prefix_append _ _⟩
        | none =>
          simp only [] at h
          cases h3 : d2.Request ("led b ".data ++ fmtInt b) with
          | ret x =>
            obtain ⟨⟨t3, e3⟩, d3⟩ := x
            obtain ⟨q3, hq3, hw3⟩ := Request_written d2 q2 _ _ d3 hq2 h3
            rw [h3] at h
            have hd : d = d3 := by
              cases e3 with
              | some e =>
                simp only [Outcome.ret.injEq, Prod.mk.injEq] at h
                exact h.2.symm
              | none =>
                simp only [Outcome.ret.injEq, Prod.mk.injEq] at h
                exact h.2.symm
            subst hd
            refine ⟨q3, hq3, ?_⟩
            rw [hw3, hw2, hw1]
            exact (List.prefix_append _ _).trans (List.prefix_append _ _)
          | panic => rw [h3] at h; cases h
          | hang => rw [h3] at h; cases h
          | outOfFuel => rw [h3] at h; cases h
      | panic => rw [h2] at h; cases h
      | hang => rw [h2] at h; cases h
      | outOfFuel => rw [h2] at h; cases h
  | panic => rw [h1] at h; cases h
  | hang => rw [h1] at h; cases h
  | outOfFuel => rw [h1] at h; cases h

/-- C13: `LED` with a value outside 0..255 and `Backlight` with an intensity
outside 0..255 return the range error and leave the device, its port log
included, as it was.  With all values inside 0..255 the range check passes:
the call goes on to its first request, so that whenever it returns on a
connected device the command line is in the port log, and on a closed device
it returns the error of the request. -/
theorem C13_range_checks (dvc : Device) (r g b i : Int) :
    ((r < 0 ∨ 255 < r ∨ g < 0 ∨ 255 < g ∨ b < 0 ∨ 255 < b) →
      dvc.LED r g b = .ret (some (.new "rgb values should be between 0-255".data), dvc)) ∧
    ((i < 0 ∨ 255 < i) →
      dvc.Backlight i = .ret (some (.new "intesity value should be between 0-255".data), dvc)) ∧
    ((0 ≤ r ∧ r ≤ 255 ∧ 0 ≤ g ∧ g ≤ 255 ∧ 0 ≤ b ∧ b ≤ 255) →
      (∀ p, dvc.Port = some p →
        (dvc.LED r g b).wrote p.written ("led r ".data ++ fmtInt r ++ ['\r'])) ∧
      (dvc.Port = none →
        dvc.LED r g b = .ret (some (.new "device no longer connected".data), dvc))) ∧
    ((0 ≤ i ∧ i ≤ 255) →
      (∀ p, dvc.Port = some p →
        (dvc.Backlight i).wrote p.written ("led bl ".data ++ fmtInt i ++ ['\r'])) ∧
      (dvc.Port = none →
        dvc.Backlight i = .ret (some (.new "device no longer connected".data), dvc))) := by
  refine ⟨?_, ?_, ?_, ?_⟩
  · intro h
    have h1 : r < 0 ∨ r > 255 ∨ g < 0 ∨ g > 255 ∨ b < 0 ∨ b > 255 := h
    simp only [Device.LED, h1, if_true]
  · intro h
    have h1 : i < 0 ∨ i > 255 := h
    simp only [Device.Backlight, h1, if_true]
  · intro h
    have hin : ¬ (r < 0 ∨ r > 255 ∨ g < 0 ∨ g > 255 ∨ b < 0 ∨ b > 255) := by omega
    refine ⟨fun p hp => LED_wrote dvc p r g b hp hin, fun hp => ?_⟩
    unfold Device.LED
    rw [if_neg hin, Request_closed dvc _ hp]
  · intro h
    have hin : ¬ (i < 0 ∨ i > 255) := by omega
    refine ⟨fun p hp => ?_, fun hp => ?_⟩
    · unfold Device.Backlight
      rw [if_neg hin]
      exact requestErr_wrote dvc p _ hp
    · unfold Device.Backlight Device.requestErr
      rw [if_neg hin, Request_closed dvc _ hp]
      rfl

set_option maxRecDepth 4000 in
/-- C13 at the values 256, 0, 0 and -1, and at 255, 0, 7 on a device that
answers each command with a bare prompt. -/
theorem C13_range_checks_witness :
    ((256 : Int) < 0 ∨ 255 < (256 : Int) ∨ (0 : Int) < 0 ∨ 255 < (0 : Int) ∨
      (0 : Int) < 0 ∨ 255 < (0 : Int)) ∧
    (Device.scripted []).LED 256 0 0
      = .ret (some (.new "rgb values should be between 0-255".data), Device.scripted []) ∧
    ((-1 : Int) < 0 ∨ 255 < (-1 : Int)) ∧
    (Device.scripted []).Backlight (-1)
      = .ret (some (.new "intesity value should be between 0-255".data), Device.scripted []) ∧
    ((0 : Int) ≤ 255 ∧ (255 : Int) ≤ 255 ∧ (0 : Int) ≤ 0 ∧ (0 : Int) ≤ 255 ∧
      (0 : Int) ≤ 7 ∧ (7 : Int) ≤ 255) ∧
    (Device.scripted [⟨"\r\n>: ".data, none⟩, ⟨[], none⟩, ⟨"\r\n>: ".data, none⟩, ⟨[], none⟩,
        ⟨"\r\n>: ".data, none⟩]).LED 255 0 7
      = .ret (none, Device.logged [] ["led r 255\r".data, "led g 0\r".data, "led b 7\r".data]) ∧
    ((Device.scripted [⟨"\r\n>: ".data, none⟩, ⟨[], none⟩, ⟨"\r\n>: ".data, none⟩, ⟨[], none⟩,
        ⟨"\r\n>: ".data, none⟩]).LED 255 0 7).wrote [] ("led r ".data ++ fmtInt 255 ++ ['\r']) :=
  ⟨by decide,
    (C13_range_checks (Device.scripted []) 256 0 0 (-1)).1 (by decide),
    by decide,
    (C13_range_checks (Device.scripted []) 256 0 0 (-1)).2.1 (by decide),
    by decide, by decide,
    ((C13_range_checks
      (Device.scripted [⟨"\r\n>: ".data, none⟩, ⟨[], none⟩, ⟨"\r\n>: ".data, none⟩, ⟨[], none⟩,
        ⟨"\r\n>: ".data, none⟩]) 255 0 7 0).2.2.1 (by decide)).1 _ rfl⟩

/-! ## C14: the order of a walk -/

theorem walkVisit_visitWith {σ : Type} (f : σ → FileInfo → σ) (items dirs : List FileInfo)
    (dvc : Device) (s : σ) :
    walkVisit (visitWith f) items dirs dvc s
      = .ret ((none, dirs ++ items.filter (fun i => i.IsDir)), dvc, items.foldl f s) := by
  induction items generalizing dirs s with
  | nil => simp [walkVisit]
  | cons info rest ih =>
    rw [walkVisit]
    simp only [visitWith]
    rw [ih]
    cases h : info.IsDir <;> simp [h]

mutual
theorem Walk_tree {σ : Type} (f : σ → FileInfo → σ) (t : DirTree) (dvc dvcF : Device)
    (dir : Str) (s : σ) (fuel : Nat) (hs : t.servedBy dvc dir = some dvcF)
    (hf : t.depth ≤ fuel) :
    Device.Walk (visitWith f) fuel dvc dir s = .ret (none, dvcF, t.expected.foldl f s) := by
  cases t with
  | node items subs =>
    cases fuel with
    | zero => simp [DirTree.depth] at hf
    | succ k =>
      simp only [DirTree.depth, Nat.succ_le_succ_iff] at hf
      rw [DirTree.servedBy] at hs
      rw [Device.Walk]
      cases hl : dvc.Ls dir with
      | ret x =>
        obtain ⟨⟨listed, err⟩, dvc1⟩ := x
        rw [hl] at hs
        cases err with
        | some e => simp at hs
        | none =>
          simp only [] at hs
          by_cases hi : listed = items
          · subst hi
            simp only [if_true] at hs
            simp only [walkVisit_visitWith, List.nil_append]
            rw [Walk_forest f subs dvc1 dvcF _ _ k hs hf]
            simp [DirTree.expected, List.foldl_append]
          · simp [hi] at hs
      | panic => rw [hl] at hs; simp at hs
      | hang => rw [hl] at hs; simp at hs
      | outOfFuel => rw [hl] at hs; simp at hs
theorem Walk_forest {σ : Type} (f : σ → FileInfo → σ) (ts : DirForest) (dvc dvcF : Device)
    (dirs : List FileInfo) (s : σ) (fuel : Nat) (hs : ts.servedBy dvc dirs = some dvcF)
    (hf : ts.depth ≤ fuel) :
    walkDirs (Device.Walk (visitWith f) fuel) dirs dvc s
      = .ret (none, dvcF, ts.expected.foldl f s) := by
  cases ts with
  | nil =>
    cases dirs with
    | nil =>
      simp only [DirForest.servedBy, Option.some.injEq] at hs
      subst hs
      simp [walkDirs, DirForest.expected]
    | cons d ds => simp [DirForest.servedBy] at hs
  | cons t rest =>
    cases dirs with
    | nil => simp [DirForest.servedBy] at hs
    | cons d ds =>
      rw [DirForest.servedBy] at hs
      simp only [DirForest.depth, max_le_iff] at hf
      cases ht : t.servedBy dvc d.Path with
      | none => rw [ht] at hs; simp at hs
      | some dvc1 =>
        rw [ht] at hs
        simp only [] at hs
        rw [walkDirs, Walk_tree f t dvc dvc1 d.Path s fuel ht hf.1]
        simp only []
        rw [Walk_forest f rest dvc1 dvcF ds _ fuel hs hf.2]
        simp [DirForest.expected, List.foldl_append]
end

/-- C14: when the device holds the directory tree `t` under `dir` (each
listing answered with the entries of the tree) and the bound on the depth is
at least the depth of the tree, `Walk` with a visitor that never fails returns
nil after calling the visitor on the entries in the order `t.expected`: the
entries of the listing of `dir` in `Ls` order, followed by the orders of the
subdirectories, one subdirectory after the other in listing order. -/
theorem C14_Walk_visits_level_then_subdirectories {σ : Type} (f : σ → FileInfo → σ)
    (t : DirTree) (dvc dvcF : Device) (dir : Str) (s : σ) (fuel : Nat)
    (hs : t.servedBy dvc dir = some dvcF) (hf : t.depth ≤ fuel) :
    Device.Walk (visitWith f) fuel dvc dir s = .ret (none, dvcF, t.expected.foldl f s) ∧
    Device.Walk (visitWith (fun seen info => seen ++ [info])) fuel dvc dir []
      = .ret (none, dvcF, t.expected) ∧
    (∀ items subs, t = .node items subs →
      (dvc.Ls dir).result = some (items, none) ∧ t.expected = items ++ subs.expected) := by
  refine ⟨Walk_tree f t dvc dvcF dir s fuel hs hf, ?_, ?_⟩
  · have h := Walk_tree (fun seen info => seen ++ [info]) t dvc dvcF dir [] fuel hs hf
    rw [h]
    have hfold : ∀ (l acc : List FileInfo),
        l.foldl (fun seen info => seen ++ [info]) acc = acc ++ l := by
      intro l
      induction l with
      | nil => simp
      | cons a l ih => intro acc; simp [ih]
    rw [hfold]
    simp
  · intro items subs ht
    subst ht
    refine ⟨?_, rfl⟩
    rw [DirTree.servedBy] at hs
    cases hl : dvc.Ls dir with
    | ret x =>
      obtain ⟨⟨listed, err⟩, dvc1⟩ := x
      rw [hl] at hs
      cases err with
      | some e => simp at hs
      | none =>
        simp only [] at hs
        by_cases hi : listed = items
        · subst hi; rfl
        · simp [hi] at hs
    | panic => rw [hl] at hs; simp at hs
    | hang => rw [hl] at hs; simp at hs
    | outOfFuel => rw [hl] at hs; simp at hs

set_option maxRecDepth 8000 in
/-- C14 on a device that holds `/ext` with the directories `a` and `b` and the
file `f`, `a` holding the file `g` and `b` nothing: the visitor sees `a`, `b`,
`f` and then `g`. -/
theorem C14_Walk_order_witness :
    (DirTree.node
        [{ IsDir := true, Path := "/ext/a".data }, { IsDir := true, Path := "/ext/b".data },
          { IsPlain := true, Path := "/ext/f".data, Size := 1 }]
        (.cons (.node [{ IsPlain := true, Path := "/ext/a/g".data, Size := 2 }] .nil)
          (.cons (.node [] .nil) .nil))).servedBy
      (Device.scripted
        [⟨"storage list /ext\r\n[D] a\r\n[F] f 1b\r\n[D] b\r\n\r\n>: ".data, none⟩,
          ⟨[], none⟩,
          ⟨"storage list /ext/a\r\n[F] g 2b\r\n\r\n>: ".data, none⟩, ⟨[], none⟩,
          ⟨"storage list /ext/b\r\n\r\n>: ".data, none⟩]) "/ext".data
      = some (Device.logged [] ["storage list /ext\r".data, "storage list /ext/a\r".data,
          "storage list /ext/b\r".data]) ∧
    Device.Walk (visitWith (fun seen info => seen ++ [info])) 2
      (Device.scripted
        [⟨"storage list /ext\r\n[D] a\r\n[F] f 1b\r\n[D] b\r\n\r\n>: ".data, none⟩,
          ⟨[], none⟩,
          ⟨"storage list /ext/a\r\n[F] g 2b\r\n\r\n>: ".data, none⟩, ⟨[], none⟩,
          ⟨"storage list /ext/b\r\n\r\n>: ".data, none⟩]) "/ext".data []
      = .ret (none,
          Device.logged [] ["storage list /ext\r".data, "storage list /ext/a\r".data,
            "storage list /ext/b\r".data],
          [{ IsDir := true, Path := "/ext/a".data }, { IsDir := true, Path := "/ext/b".data },
            { IsPlain := true, Path := "/ext/f".data, Size := 1 },
            { IsPlain := true, Path := "/ext/a/g".data, Size := 2 }]) :=
  ⟨by decide,
    (C14_Walk_visits_level_then_subdirectories (fun seen info => seen ++ [info])
      (DirTree.node
        [{ IsDir := true, Path := "/ext/a".data }, { IsDir := true, Path := "/ext/b".data },
          { IsPlain := true, Path := "/ext/f".data, Size := 1 }]
        (.cons (.node [{ IsPlain := true, Path := "/ext/a/g".data, Size := 2 }] .nil)
          (.cons (.node [] .nil) .nil))) _ _ "/ext".data [] 2 (by decide) (by decide)).2.1⟩

/-! ## C15: a visitor that fails -/

theorem traced_walkVisit {σ : Type} (fn : Visitor σ) (items dirs : List FileInfo)
    (dvc : Device) (t : Traced σ) (r : Option GoError) (dirs1 : List FileInfo) (d : Device)
    (t1 : Traced σ) (hfail : t.failed = none) (hlate : t.late = 0)
    (h : walkVisit (traced fn) items dirs dvc t = .ret ((r, dirs1), d, t1)) :
    t1.late = 0 ∧ (t1.failed = none ∨ ∃ e, t1.failed = some (e, d) ∧ r = some e) := by
  induction items generalizing dirs dvc t with
  | nil =>
    simp only [walkVisit, Outcome.ret.injEq, Prod.mk.injEq] at h
    obtain ⟨-, -, rfl⟩ := h
    exact ⟨hlate, Or.inl hfail⟩
  | cons info rest ih =>
    rw [walkVisit] at h
    simp only [traced, hfail, Option.isSome_none, Bool.false_eq_true, if_false] at h
    cases hfn : fn info dvc t.state with
    | ret x =>
      obtain ⟨err, d1, s1⟩ := x
      rw [hfn] at h
      cases err with
      | some e =>
        simp only [Option.map_some', Outcome.ret.injEq, Prod.mk.injEq] at h
        obtain ⟨⟨rfl, -⟩, rfl, rfl⟩ := h
        exact ⟨hlate, Or.inr ⟨e, rfl, rfl⟩⟩
      | none =>
        simp only [Option.map_none'] at h
        exact ih _ _ ⟨s1, none, t.late⟩ rfl hlate h
    | panic => rw [hfn] at h; cases h
    | hang => rw [hfn] at h; cases h
    | outOfFuel => rw [hfn] at h; cases h

theorem traced_walkDirs {σ : Type}
    (walk : Device → Str → Traced σ → Outcome (Option GoError × Device × Traced σ))
    (hwalk : ∀ dvc dir t r d t1, t.failed = none → t.late = 0 →
      walk dvc dir t = .ret (r, d, t1) →
      t1.late = 0 ∧ (t1.failed = none ∨ ∃ e, t1.failed = some (e, d) ∧ r = some e))
    (dirs : List FileInfo) (dvc : Device) (t : Traced σ) (r : Option GoError) (d : Device)
    (t1 : Traced σ) (hfail : t.failed = none) (hlate : t.late = 0)
    (h : walkDirs walk dirs dvc t = .ret (r, d, t1)) :
    t1.late = 0 ∧ (t1.failed = none ∨ ∃ e, t1.failed = some (e, d) ∧ r = some e) := by
  induction dirs generalizing dvc t with
  | nil =>
    simp only [walkDirs, Outcome.ret.injEq, Prod.mk.injEq] at h
    obtain ⟨-, -, rfl⟩ := h
    exact ⟨hlate, Or.inl hfail⟩
  | cons info rest ih =>
    rw [walkDirs] at h
    cases hw : walk dvc info.Path t with
    | ret x =>
      obtain ⟨err, d1, t2⟩ := x
      rw [hw] at h
      have hpost := hwalk dvc info.Path t err d1 t2 hfail hlate hw
      cases err with
      | some e =>
        simp only [Outcome.ret.injEq, Prod.mk.injEq] at h
        obtain ⟨rfl, rfl, rfl⟩ := h
        exact hpost
      | none =>
        simp only [] at h
        obtain ⟨hl2, hf2⟩ := hpost
        have hf3 : t2.failed = none := by
          rcases hf2 with hf2 | ⟨e, -, he⟩
          · exact hf2
          · cases he
        exact ih _ _ hf3 hl2 h
    | panic => rw [hw] at h; cases h
    | hang => rw [hw] at h; cases h
    | outOfFuel => rw [hw] at h; cases h

theorem traced_Walk {σ : Type} (fn : Visitor σ) (fuel : Nat) (dvc : Device) (dir : Str)
    (t : Traced σ) (r : Option GoError) (d : Device) (t1 : Traced σ)
    (hfail : t.failed = none) (hlate : t.late = 0)
    (h : Device.Walk (traced fn) fuel dvc dir t = .ret (r, d, t1)) :
    t1.late = 0 ∧ (t1.failed = none ∨ ∃ e, t1.failed = some (e, d) ∧ r = some e) := by
  induction fuel generalizing dvc dir t r d t1 with
  | zero => simp [Device.Walk] at h
  | succ k ih =>
    rw [Device.Walk] at h
    cases hl : dvc.Ls dir with
    | ret x =>
      obtain ⟨⟨items, err⟩, dvc1⟩ := x
      rw [hl] at h
      cases err with
      | some e =>
        simp only [Outcome.ret.injEq, Prod.mk.injEq] at h
        obtain ⟨-, -, rfl⟩ := h
        exact ⟨hlate, Or.inl hfail⟩
      | none =>
        simp only [] at h
        cases hv : walkVisit (traced fn) items [] dvc1 t with
        | ret y =>
          obtain ⟨⟨verr, dirs⟩, dvc2, t2⟩ := y
          rw [hv] at h
          have hpost := traced_walkVisit fn items [] dvc1 t verr dirs dvc2 t2 hfail hlate hv
          cases verr with
          | some e =>
            simp only [Outcome.ret.injEq, Prod.mk.injEq] at h
            obtain ⟨rfl, rfl, rfl⟩ := h
            exact hpost
          | none =>
            simp only [] at h
            obtain ⟨hl2, hf2⟩ := hpost
            have hf3 : t2.failed = none := by
              rcases hf2 with hf2 | ⟨e, -, he⟩
              · exact hf2
              · cases he
            exact traced_walkDirs (Device.Walk (traced fn) k)
              (fun dvc dir t r d t1 hf hl hw => ih dvc dir t r d t1 hf hl hw)
              dirs dvc2 t2 r d t1 hf3 hl2 h
        | panic => rw [hv] at h; cases h
        | hang => rw [hv] at h; cases h
        | outOfFuel => rw [hv] at h; cases h
    | panic => rw [hl] at h; cases h
    | hang => rw [hl] at h; cases h
    | outOfFuel => rw [hl] at h; cases h

theorem foldUntil_append {σ : Type} (f : σ → FileInfo → Option GoError × σ)
    (a b : List FileInfo) (s : σ) :
    foldUntil f (a ++ b) s
      = match foldUntil f a s with
        | (some e, s1) => (some e, s1)
        | (none, s1) => foldUntil f b s1 := by
  induction a generalizing s with
  | nil => simp [foldUntil]
  | cons x xs ih =>
    simp only [List.cons_append, foldUntil]
    cases h : f s x with
    | mk e s1 =>
      cases e with
      | some e => simp
      | none => simp only []; exact ih s1

/-- The first loop of `Walk` with a visitor that may fail, under observation:
the device is untouched, the result is that of the calls up to the first
failing entry, and without an error all the directories are collected. -/
theorem walkVisit_visitMay {σ : Type} (f : σ → FileInfo → Option GoError × σ)
    (items dirs : List FileInfo) (dvc : Device) (s : σ) :
    ∃ dirs1,
      walkVisit (traced (visitMay f)) items dirs dvc ⟨s, none, 0⟩
        = .ret (((foldUntil f items s).1, dirs1), dvc,
            ⟨(foldUntil f items s).2, (foldUntil f items s).1.map (fun e => (e, dvc)), 0⟩) ∧
      walkVisit (visitMay f) items dirs dvc s
        = .ret (((foldUntil f items s).1, dirs1), dvc, (foldUntil f items s).2) ∧
      ((foldUntil f items s).1 = none → dirs1 = dirs ++ items.filter (fun i => i.IsDir)) := by
  induction items generalizing dirs s with
  | nil => exact ⟨dirs, by simp [walkVisit, foldUntil], by simp [walkVisit, foldUntil], by simp⟩
  | cons info rest ih =>
    cases h : f s info with
    | mk e s1 =>
      cases e with
      | some e =>
        refine ⟨dirs, ?_, ?_, ?_⟩
        · simp [walkVisit, traced, visitMay, foldUntil, h]
        · simp [walkVisit, visitMay, foldUntil, h]
        · simp [foldUntil, h]
      | none =>
        obtain ⟨dirs1, h1, h2, h3⟩ := ih (if info.IsDir then dirs ++ [info] else dirs) s1
        refine ⟨dirs1, ?_, ?_, ?_⟩
        · rw [walkVisit]
          simp only [traced, visitMay, h, Option.isSome_none, Bool.false_eq_true, if_false,
            Option.map_none', foldUntil]
          exact h1
        · rw [walkVisit]
          simp only [visitMay, h, foldUntil]
          exact h2
        · intro hn
          simp only [foldUntil, h] at hn
          rw [h3 hn]
          cases hd : info.IsDir <;> simp [hd]

mutual
/-- On a device that holds the directory tree `t` under `dir`, with a visitor
that leaves the device alone, `Walk` returns within the depth of the tree: the
outcome of the calls in the order of the walk up to and including the first
entry on which the visitor returns an error. -/
theorem Walk_tree_until {σ : Type} (f : σ → FileInfo → Option GoError × σ) (t : DirTree)
    (dvc dvcF : Device) (dir : Str) (s : σ) (fuel : Nat)
    (hs : t.servedBy dvc dir = some dvcF) (hf : t.depth ≤ fuel) :
    ∃ d,
      Device.Walk (visitMay f) fuel dvc dir s
        = .ret ((foldUntil f t.expected s).1, d, (foldUntil f t.expected s).2) ∧
      Device.Walk (traced (visitMay f)) fuel dvc dir ⟨s, none, 0⟩
        = .ret ((foldUntil f t.expected s).1, d,
            ⟨(foldUntil f t.expected s).2,
              (foldUntil f t.expected s).1.map (fun e => (e, d)), 0⟩) ∧
      ((foldUntil f t.expected s).1 = none → d = dvcF) := by
  cases t with
  | node items subs =>
    cases fuel with
    | zero => simp [DirTree.depth] at hf
    | succ k =>
      simp only [DirTree.depth, Nat.succ_le_succ_iff] at hf
      rw [DirTree.servedBy] at hs
      cases hl : dvc.Ls dir with
      | ret x =>
        obtain ⟨⟨listed, err⟩, dvc1⟩ := x
        rw [hl] at hs
        cases err with
        | some e => simp at hs
        | none =>
          simp only [] at hs
          by_cases hi : listed = items
          · subst hi
            simp only [if_true] at hs
            obtain ⟨dirs1, hv1, hv2, hv3⟩ := walkVisit_visitMay f listed [] dvc1 s
            simp only [DirTree.expected, foldUntil_append]
            cases hE : foldUntil f listed s with
            | mk e s1 =>
              rw [hE] at hv1 hv2 hv3
              cases e with
              | some e =>
                refine ⟨dvc1, ?_, ?_, ?_⟩
                · rw [Device.Walk, hl]
                  simp only [hv2]
                · rw [Device.Walk, hl]
                  simp only [hv1, Option.map_some']
                · intro hn; cases hn
              | none =>
                have hd := hv3 rfl
                rw [List.nil_append] at hd
                subst hd
                obtain ⟨d, hw1, hw2, hw3⟩ := Walk_forest_until f subs dvc1 dvcF _ s1 k hs hf
                refine ⟨d, ?_, ?_, hw3⟩
                · rw [Device.Walk, hl]
                  simp only [hv2]
                  exact hw1
                · rw [Device.Walk, hl]
                  simp only [hv1, Option.map_none']
                  exact hw2
          · simp [hi] at hs
      | panic => rw [hl] at hs; simp at hs
      | hang => rw [hl] at hs; simp at hs
      | outOfFuel => rw [hl] at hs; simp at hs
/-- The second loop of `Walk` on the subdirectories of such a tree. -/
theorem Walk_forest_until {σ : Type} (f : σ → FileInfo → Option GoError × σ) (ts : DirForest)
    (dvc dvcF : Device) (dirs : List FileInfo) (s : σ) (fuel : Nat)
    (hs : ts.servedBy dvc dirs = some dvcF) (hf : ts.depth ≤ fuel) :
    ∃ d,
      walkDirs (Device.Walk (visitMay f) fuel) dirs dvc s
        = .ret ((foldUntil f ts.expected s).1, d, (foldUntil f ts.expected s).2) ∧
      walkDirs (Device.Walk (traced (visitMay f)) fuel) dirs dvc ⟨s, none, 0⟩
        = .ret ((foldUntil f ts.expected s).1, d,
            ⟨(foldUntil f ts.expected s).2,
              (foldUntil f ts.expected s).1.map (fun e => (e, d)), 0⟩) ∧
      ((foldUntil f ts.expected s).1 = none → d = dvcF) := by
  cases ts with
  | nil =>
    cases dirs with
    | nil =>
      simp only [DirForest.servedBy, Option.some.injEq] at hs
      subst hs
      exact ⟨dvc, by simp [walkDirs, DirForest.expected, foldUntil],
        by simp [walkDirs, DirForest.expected, foldUntil], fun _ => rfl⟩
    | cons d ds => simp [DirForest.servedBy] at hs
  | cons t rest =>
    cases dirs with
    | nil => simp [DirForest.servedBy] at hs
    | cons d ds =>
      rw [DirForest.servedBy] at hs
      simp only [DirForest.depth, max_le_iff] at hf
      cases ht : t.servedBy dvc d.Path with
      | none => rw [ht] at hs; simp at hs
      | some dvc1 =>
        rw [ht] at hs
        simp only [] at hs
        obtain ⟨d1, ht1, ht2, ht3⟩ := Walk_tree_until f t dvc dvc1 d.Path s fuel ht hf.1
        simp only [DirForest.expected, foldUntil_append]
        cases hE : foldUntil f t.expected s with
        | mk e s1 =>
          rw [hE] at ht1 ht2 ht3
          cases e with
          | some e =>
            refine ⟨d1, ?_, ?_, ?_⟩
            · rw [walkDirs, ht1]
            · rw [walkDirs, ht2]
            · intro hn; cases hn
          | none =>
            have hd := ht3 rfl
            subst hd
            obtain ⟨d2, hr1, hr2, hr3⟩ := Walk_forest_until f rest d1 dvcF ds s1 fuel hs hf.2
            refine ⟨d2, ?_, ?_, hr3⟩
            · rw [walkDirs, ht1]
              exact hr1
            · rw [walkDirs, ht2]
              exact hr2
end

/-- After the calls on which the visitor returns nil, the first loop of `Walk`
goes on with the remaining entries. -/
theorem walkVisit_callsOk {σ : Type} (fn : Visitor σ) (pre rest dirs : List FileInfo)
    (dvc d1 : Device) (s s1 : σ) (h : callsOk fn pre dvc s = some (d1, s1)) :
    walkVisit fn (pre ++ rest) dirs dvc s
      = walkVisit fn rest (dirs ++ pre.filter (fun i => i.IsDir)) d1 s1 := by
  induction pre generalizing dirs dvc s with
  | nil =>
    simp only [callsOk, Option.some.injEq, Prod.mk.injEq] at h
    obtain ⟨rfl, rfl⟩ := h
    simp
  | cons info pre ih =>
    rw [callsOk] at h
    rw [List.cons_append, walkVisit]
    cases hfn : fn info dvc s with
    | ret x =>
      obtain ⟨err, d2, s2⟩ := x
      rw [hfn] at h
      cases err with
      | some e => simp at h
      | none =>
        simp only [] at h
        simp only []
        rw [ih _ _ _ h]
        cases hd : info.IsDir <;> simp [hd]
    | panic => rw [hfn] at h; simp at h
    | hang => rw [hfn] at h; simp at h
    | outOfFuel => rw [hfn] at h; simp at h

/-- After the walks that return nil, the second loop of `Walk` goes on with
the remaining directories. -/
theorem walkDirs_append {σ : Type}
    (walk : Device → Str → σ → Outcome (Option GoError × Device × σ))
    (pre rest : List FileInfo) (dvc d1 : Device) (s s1 : σ)
    (h : walkDirs walk pre dvc s = .ret (none, d1, s1)) :
    walkDirs walk (pre ++ rest) dvc s = walkDirs walk rest d1 s1 := by
  induction pre generalizing dvc s with
  | nil =>
    simp only [walkDirs, Outcome.ret.injEq, Prod.mk.injEq, true_and] at h
    obtain ⟨rfl, rfl⟩ := h
    simp
  | cons info pre ih =>
    rw [walkDirs] at h
    rw [List.cons_append, walkDirs]
    cases hw : walk dvc info.Path s with
    | ret x =>
      obtain ⟨err, d2, s2⟩ := x
      rw [hw] at h
      cases err with
      | some e => simp at h
      | none =>
        simp only [] at h
        simp only []
        exact ih _ _ h
    | panic => rw [hw] at h; cases h
    | hang => rw [hw] at h; cases h
    | outOfFuel => rw [hw] at h; cases h

/-- The second loop of `Walk` returns the same with a recursive call that
returns the same wherever the first one returns. -/
theorem walkDirs_mono {σ : Type}
    (walk walk2 : Device → Str → σ → Outcome (Option GoError × Device × σ))
    (hw : ∀ dvc dir s x, walk dvc dir s = .ret x → walk2 dvc dir s = .ret x)
    (dirs : List FileInfo) (dvc : Device) (s : σ) (x : Option GoError × Device × σ)
    (h : walkDirs walk dirs dvc s = .ret x) : walkDirs walk2 dirs dvc s = .ret x := by
  induction dirs generalizing dvc s with
  | nil => simpa [walkDirs] using h
  | cons info rest ih =>
    rw [walkDirs] at h
    rw [walkDirs]
    cases hc : walk dvc info.Path s with
    | ret y =>
      obtain ⟨err, d2, s2⟩ := y
      rw [hc] at h
      rw [hw _ _ _ _ hc]
      cases err with
      | some e => exact h
      | none => exact ih _ _ h
    | panic => rw [hc] at h; cases h
    | hang => rw [hc] at h; cases h
    | outOfFuel => rw [hc] at h; cases h

/-- A walk that returns within a bound on the depth returns the same within
the next one. -/
theorem Walk_succ {σ : Type} (fn : Visitor σ) (fuel : Nat) (dvc : Device) (dir : Str) (s : σ)
    (x : Option GoError × Device × σ) (h : Device.Walk fn fuel dvc dir s = .ret x) :
    Device.Walk fn (fuel + 1) dvc dir s = .ret x := by
  induction fuel generalizing dvc dir s x with
  | zero => simp [Device.Walk] at h
  | succ k ih =>
    rw [Device.Walk] at h
    rw [Device.Walk]
    cases hl : dvc.Ls dir with
    | ret y =>
      obtain ⟨⟨items, err⟩, d1⟩ := y
      rw [hl] at h
      cases err with
      | some e => exact h
      | none =>
        simp only [] at h
        simp only []
        cases hv : walkVisit fn items [] d1 s with
        | ret z =>
          obtain ⟨⟨err2, dirs⟩, d2, s2⟩ := z
          rw [hv] at h
          cases err2 with
          | some e => exact h
          | none => exact walkDirs_mono _ _ ih _ _ _ _ h
        | panic => rw [hv] at h; cases h
        | hang => rw [hv] at h; cases h
        | outOfFuel => rw [hv] at h; cases h
    | panic => rw [hl] at h; cases h
    | hang => rw [hl] at h; cases h
    | outOfFuel => rw [hl] at h; cases h

/-- A walk that returns within a bound on the depth returns the same within
every larger one. -/
theorem Walk_le {σ : Type} (fn : Visitor σ) (k fuel : Nat) (hk : k ≤ fuel) (dvc : Device)
    (dir : Str) (s : σ) (x : Option GoError × Device × σ)
    (h : Device.Walk fn k dvc dir s = .ret x) : Device.Walk fn fuel dvc dir s = .ret x := by
  induction hk with
  | refl => exact h
  | step _ ih => exact Walk_succ fn _ dvc dir s x ih

/-- The first loop of `Walk` under observation returns what it returns
unobserved, with the record of the error returned and no late call. -/
theorem walkVisit_traced {σ : Type} (fn : Visitor σ) (items dirs dirs1 : List FileInfo)
    (dvc d1 : Device) (s s1 : σ) (r : Option GoError)
    (h : walkVisit fn items dirs dvc s = .ret ((r, dirs1), d1, s1)) :
    walkVisit (traced fn) items dirs dvc ⟨s, none, 0⟩
      = .ret ((r, dirs1), d1, ⟨s1, r.map (fun e => (e, d1)), 0⟩) := by
  induction items generalizing dirs dvc s with
  | nil =>
    simp only [walkVisit, Outcome.ret.injEq, Prod.mk.injEq] at h
    obtain ⟨⟨rfl, rfl⟩, rfl, rfl⟩ := h
    simp [walkVisit]
  | cons info rest ih =>
    rw [walkVisit] at h
    rw [walkVisit]
    simp only [traced]
    cases hfn : fn info dvc s with
    | ret x =>
      obtain ⟨err, d2, s2⟩ := x
      rw [hfn] at h
      cases err with
      | some e =>
        simp only [Outcome.ret.injEq, Prod.mk.injEq] at h
        obtain ⟨⟨rfl, rfl⟩, rfl, rfl⟩ := h
        simp
      | none =>
        simp only [] at h
        simp only [Option.isSome_none, Bool.false_eq_true, if_false, Option.map_none']
        exact ih _ _ _ h
    | panic => rw [hfn] at h; cases h
    | hang => rw [hfn] at h; cases h
    | outOfFuel => rw [hfn] at h; cases h

/-- The second loop of `Walk` under observation returns nil where it returns
nil unobserved, for a recursive call of which this holds. -/
theorem walkDirs_traced {σ : Type}
    (walk : Device → Str → σ → Outcome (Option GoError × Device × σ))
    (walk2 : Device → Str → Traced σ → Outcome (Option GoError × Device × Traced σ))
    (hw : ∀ dvc dir s d1 s1, walk dvc dir s = .ret (none, d1, s1) →
      walk2 dvc dir ⟨s, none, 0⟩ = .ret (none, d1, ⟨s1, none, 0⟩))
    (dirs : List FileInfo) (dvc d1 : Device) (s s1 : σ)
    (h : walkDirs walk dirs dvc s = .ret (none, d1, s1)) :
    walkDirs walk2 dirs dvc ⟨s, none, 0⟩ = .ret (none, d1, ⟨s1, none, 0⟩) := by
  induction dirs generalizing dvc s with
  | nil =>
    simp only [walkDirs, Outcome.ret.injEq, Prod.mk.injEq, true_and] at h
    obtain ⟨rfl, rfl⟩ := h
    simp [walkDirs]
  | cons info rest ih =>
    rw [walkDirs] at h
    rw [walkDirs]
    cases hc : walk dvc info.Path s with
    | ret y =>
      obtain ⟨err, d2, s2⟩ := y
      rw [hc] at h
      cases err with
      | some e => simp at h
      | none =>
        simp only [] at h
        rw [hw _ _ _ _ _ hc]
        exact ih _ _ h
    | panic => rw [hc] at h; cases h
    | hang => rw [hc] at h; cases h
    | outOfFuel => rw [hc] at h; cases h

/-- A walk under observation returns nil where it returns nil unobserved, and
records no error. -/
theorem Walk_traced {σ : Type} (fn : Visitor σ) (fuel : Nat) (dvc d1 : Device) (dir : Str)
    (s s1 : σ) (h : Device.Walk fn fuel dvc dir s = .ret (none, d1, s1)) :
    Device.Walk (traced fn) fuel dvc dir ⟨s, none, 0⟩ = .ret (none, d1, ⟨s1, none, 0⟩) := by
  induction fuel generalizing dvc dir s d1 s1 with
  | zero => simp [Device.Walk] at h
  | succ k ih =>
    rw [Device.Walk] at h
    rw [Device.Walk]
    cases hl : dvc.Ls dir with
    | ret y =>
      obtain ⟨⟨items, err⟩, d0⟩ := y
      rw [hl] at h
      cases err with
      | some e => simp at h
      | none =>
        simp only [] at h
        simp only []
        cases hv : walkVisit fn items [] d0 s with
        | ret z =>
          obtain ⟨⟨err2, dirs⟩, d2, s2⟩ := z
          rw [hv] at h
          rw [walkVisit_traced fn _ _ _ _ _ _ _ _ hv]
          cases err2 with
          | some e => simp at h
          | none =>
            simp only [] at h
            simp only [Option.map_none']
            exact walkDirs_traced _ _ (fun d p t d3 t3 hx => ih d d3 p t t3 hx) _ _ _ _ _ h
        | panic => rw [hv] at h; cases h
        | hang => rw [hv] at h; cases h
        | outOfFuel => rw [hv] at h; cases h
    | panic => rw [hl] at h; cases h
    | hang => rw [hl] at h; cases h
    | outOfFuel => rw [hl] at h; cases h

/-- The calls on which the visitor returns nil, under observation. -/
theorem callsOk_traced {σ : Type} (fn : Visitor σ) (items : List FileInfo) (dvc d1 : Device)
    (s s1 : σ) (h : callsOk fn items dvc s = some (d1, s1)) :
    callsOk (traced fn) items dvc ⟨s, none, 0⟩ = some (d1, ⟨s1, none, 0⟩) := by
  induction items generalizing dvc s with
  | nil =>
    simp only [callsOk, Option.some.injEq, Prod.mk.injEq] at h
    obtain ⟨rfl, rfl⟩ := h
    simp [callsOk]
  | cons info rest ih =>
    rw [callsOk] at h
    rw [callsOk]
    simp only [traced]
    cases hfn : fn info dvc s with
    | ret x =>
      obtain ⟨err, d2, s2⟩ := x
      rw [hfn] at h
      cases err with
      | some e => simp at h
      | none =>
        simp only [] at h
        simp only [Option.isSome_none, Bool.false_eq_true, if_false, Option.map_none']
        exact ih _ _ h
    | panic => rw [hfn] at h; simp at h
    | hang => rw [hfn] at h; simp at h
    | outOfFuel => rw [hfn] at h; simp at h

/-- A run in which the visitor returns an error is one in which the visitor
under observation returns it, with the record of that error and no late
call. -/
theorem VisitorFails_traced {σ : Type} (fn : Visitor σ) (dvc : Device) (dir : Str) (s : σ)
    (e : GoError) (dF : Device) (sF : σ) (h : Device.VisitorFails fn dvc dir s e dF sF) :
    Device.VisitorFails (traced fn) dvc dir ⟨s, none, 0⟩ e dF ⟨sF, some (e, dF), 0⟩ := by
  induction h with
  | here dvc dir s e dF sF items pre post info d0 d1 s1 hl hi hc hfn =>
    refine .here dvc dir _ e dF _ items pre post info d0 d1 ⟨s1, none, 0⟩ hl hi
      (callsOk_traced fn _ _ _ _ _ hc) ?_
    simp [traced, hfn]
  | deeper dvc dir s e dF sF items pre post sub d0 d1 d2 s1 s2 k hl hc hd hw _ ih =>
    exact .deeper dvc dir _ e dF _ items pre post sub d0 d1 d2 ⟨s1, none, 0⟩ ⟨s2, none, 0⟩ k hl
      (callsOk_traced fn _ _ _ _ _ hc) hd
      (walkDirs_traced _ _ (fun _ _ _ _ _ hx => Walk_traced fn k _ _ _ _ _ hx) _ _ _ _ _ hw) ih

/-- A walk in which the visitor returns the error `e` on some entry returns,
within every bound on the depth from some bound on, the error `e`, the device
and the state as they are right after that call. -/
theorem Walk_VisitorFails {σ : Type} (fn : Visitor σ) (dvc : Device) (dir : Str) (s : σ)
    (e : GoError) (dF : Device) (sF : σ) (h : Device.VisitorFails fn dvc dir s e dF sF) :
    ∃ k, ∀ fuel, k ≤ fuel → Device.Walk fn fuel dvc dir s = .ret (some e, dF, sF) := by
  induction h with
  | here dvc dir s e dF sF items pre post info d0 d1 s1 hl hi hc hfn =>
    refine ⟨1, fun fuel hf => ?_⟩
    obtain ⟨f, rfl⟩ := Nat.exists_eq_add_of_le hf
    rw [Nat.add_comm, Device.Walk, hl]
    simp only []
    rw [hi, walkVisit_callsOk fn pre _ _ _ _ _ _ hc, walkVisit, hfn]
  | deeper dvc dir s e dF sF items pre post sub d0 d1 d2 s1 s2 k hl hc hd hw _ ih =>
    obtain ⟨k1, hk1⟩ := ih
    refine ⟨max k k1 + 1, fun fuel hf => ?_⟩
    obtain ⟨f, rfl⟩ := Nat.exists_eq_add_of_le hf
    have hv := walkVisit_callsOk fn items [] [] _ _ _ _ hc
    rw [List.append_nil, walkVisit, List.nil_append, hd] at hv
    have hkf : k ≤ max k k1 + f := le_trans (le_max_left _ _) (Nat.le_add_right _ _)
    have hk1f : k1 ≤ max k k1 + f := le_trans (le_max_right _ _) (Nat.le_add_right _ _)
    have hw2 := walkDirs_mono _ _ (fun d p t x hx => Walk_le fn k _ hkf d p t x hx) _ _ _ _ hw
    have e1 : max k k1 + 1 + f = (max k k1 + f) + 1 := by omega
    rw [e1, Device.Walk, hl]
    simp only []
    rw [hv]
    simp only []
    rw [walkDirs_append _ _ _ _ _ _ _ hw2, walkDirs, hk1 _ hk1f]

/-- C15: in a walk in which the visitor returns the error `e` on some entry
(the listings up to that entry are served, and the visitor and the walks of
the subdirectories before it return nil), `Walk` returns: within every bound on
the depth from some bound on, it returns exactly `e`, with the device and the
state of the visitor as they are right after that call.  Run with the visitor
under observation it returns the same, and the record holds that error, the
device as `Walk` leaves it, and no call made after the error: the visitor is
invoked on no later entry and nothing more is requested of the device. -/
theorem C15_visitor_error_aborts_walk {σ : Type} (fn : Visitor σ) (dvc : Device) (dir : Str)
    (s : σ) (e : GoError) (dF : Device) (sF : σ)
    (h : Device.VisitorFails fn dvc dir s e dF sF) :
    ∃ k, ∀ fuel, k ≤ fuel →
      Device.Walk fn fuel dvc dir s = .ret (some e, dF, sF) ∧
      Device.Walk (traced fn) fuel dvc dir ⟨s, none, 0⟩
        = .ret (some e, dF, ⟨sF, some (e, dF), 0⟩) := by
  obtain ⟨k1, h1⟩ := Walk_VisitorFails fn dvc dir s e dF sF h
  obtain ⟨k2, h2⟩ := Walk_VisitorFails (traced fn) dvc dir _ e dF _
    (VisitorFails_traced fn dvc dir s e dF sF h)
  exact ⟨max k1 k2, fun fuel hf =>
    ⟨h1 fuel (le_trans (le_max_left _ _) hf), h2 fuel (le_trans (le_max_right _ _) hf)⟩⟩

set_option maxRecDepth 8000 in
/-- C15 on a device that holds `/ext` with the directories `a`, `b`, `c` and
the file `f`, `a` holding the file `g` and `b` the files `h` and `i`, with a
visitor that returns the error `stop` on `/ext/b/h`: `Walk` returns `stop`,
the visitor has seen `a`, `b`, `c`, `f`, `g` and `h` and not `i`, and the
listing of `/ext/c` has not been requested. -/
theorem C15_visitor_error_witness :
    ∃ k, ∀ fuel, k ≤ fuel →
      Device.Walk (visitMay (failOn "/ext/b/h".data)) fuel
        (Device.scripted
          [⟨"storage list /ext\r\n[D] a\r\n[D] b\r\n[D] c\r\n[F] f 1b\r\n\r\n>: ".data, none⟩,
            ⟨[], none⟩,
            ⟨"storage list /ext/a\r\n[F] g 2b\r\n\r\n>: ".data, none⟩, ⟨[], none⟩,
            ⟨"storage list /ext/b\r\n[F] h 3b\r\n[F] i 4b\r\n\r\n>: ".data, none⟩,
            ⟨[], none⟩, ⟨"storage list /ext/c\r\n\r\n>: ".data, none⟩])
        "/ext".data []
        = .ret (some (.new "stop".data),
          Device.logged [⟨"storage list /ext/c\r\n\r\n>: ".data, none⟩]
            ["storage list /ext\r".data, "storage list /ext/a\r".data,
              "storage list /ext/b\r".data],
          [{ IsDir := true, Path := "/ext/a".data }, { IsDir := true, Path := "/ext/b".data },
            { IsDir := true, Path := "/ext/c".data },
            { IsPlain := true, Path := "/ext/f".data, Size := 1 },
            { IsPlain := true, Path := "/ext/a/g".data, Size := 2 },
            { IsPlain := true, Path := "/ext/b/h".data, Size := 3 }]) ∧
      Device.Walk (traced (visitMay (failOn "/ext/b/h".data))) fuel
        (Device.scripted
          [⟨"storage list /ext\r\n[D] a\r\n[D] b\r\n[D] c\r\n[F] f 1b\r\n\r\n>: ".data, none⟩,
            ⟨[], none⟩,
            ⟨"storage list /ext/a\r\n[F] g 2b\r\n\r\n>: ".data, none⟩, ⟨[], none⟩,
            ⟨"storage list /ext/b\r\n[F] h 3b\r\n[F] i 4b\r\n\r\n>: ".data, none⟩,
            ⟨[], none⟩, ⟨"storage list /ext/c\r\n\r\n>: ".data, none⟩])
        "/ext".data ⟨[], none, 0⟩
        = .ret (some (.new "stop".data),
          Device.logged [⟨"storage list /ext/c\r\n\r\n>: ".data, none⟩]
            ["storage list /ext\r".data, "storage list /ext/a\r".data,
              "storage list /ext/b\r".data],
          ⟨[{ IsDir := true, Path := "/ext/a".data }, { IsDir := true, Path := "/ext/b".data },
              { IsDir := true, Path := "/ext/c".data },
              { IsPlain := true, Path := "/ext/f".data, Size := 1 },
              { IsPlain := true, Path := "/ext/a/g".data, Size := 2 },
              { IsPlain := true, Path := "/ext/b/h".data, Size := 3 }],
            some (.new "stop".data,
              Device.logged [⟨"storage list /ext/c\r\n\r\n>: ".data, none⟩]
                ["storage list /ext\r".data, "storage list /ext/a\r".data,
                  "storage list /ext/b\r".data]), 0⟩) :=
  C15_visitor_error_aborts_walk (visitMay (failOn "/ext/b/h".data))
    (Device.scripted
      [⟨"storage list /ext\r\n[D] a\r\n[D] b\r\n[D] c\r\n[F] f 1b\r\n\r\n>: ".data, none⟩,
        ⟨[], none⟩,
        ⟨"storage list /ext/a\r\n[F] g 2b\r\n\r\n>: ".data, none⟩, ⟨[], none⟩,
        ⟨"storage list /ext/b\r\n[F] h 3b\r\n[F] i 4b\r\n\r\n>: ".data, none⟩,
        ⟨[], none⟩, ⟨"storage list /ext/c\r\n\r\n>: ".data, none⟩])
    "/ext".data [] (.new "stop".data)
    (Device.logged [⟨"storage list /ext/c\r\n\r\n>: ".data, none⟩]
      ["storage list /ext\r".data, "storage list /ext/a\r".data,
        "storage list /ext/b\r".data])
    [{ IsDir := true, Path := "/ext/a".data }, { IsDir := true, Path := "/ext/b".data },
      { IsDir := true, Path := "/ext/c".data },
      { IsPlain := true, Path := "/ext/f".data, Size := 1 },
      { IsPlain := true, Path := "/ext/a/g".data, Size := 2 },
      { IsPlain := true, Path := "/ext/b/h".data, Size := 3 }]
    (.deeper _ _ _ _ _ _
      [{ IsDir := true, Path := "/ext/a".data }, { IsDir := true, Path := "/ext/b".data },
        { IsDir := true, Path := "/ext/c".data },
        { IsPlain := true, Path := "/ext/f".data, Size := 1 }]
      [{ IsDir := true, Path := "/ext/a".data }]
      [{ IsDir := true, Path := "/ext/c".data }]
      { IsDir := true, Path := "/ext/b".data }
      (Device.logged
        [⟨"storage list /ext/a\r\n[F] g 2b\r\n\r\n>: ".data, none⟩, ⟨[], none⟩,
          ⟨"storage list /ext/b\r\n[F] h 3b\r\n[F] i 4b\r\n\r\n>: ".data, none⟩,
          ⟨[], none⟩, ⟨"storage list /ext/c\r\n\r\n>: ".data, none⟩]
        ["storage list /ext\r".data])
      (Device.logged
        [⟨"storage list /ext/a\r\n[F] g 2b\r\n\r\n>: ".data, none⟩, ⟨[], none⟩,
          ⟨"storage list /ext/b\r\n[F] h 3b\r\n[F] i 4b\r\n\r\n>: ".data, none⟩,
          ⟨[], none⟩, ⟨"storage list /ext/c\r\n\r\n>: ".data, none⟩]
        ["storage list /ext\r".data])
      (Device.logged
        [⟨"storage list /ext/b\r\n[F] h 3b\r\n[F] i 4b\r\n\r\n>: ".data, none⟩,
          ⟨[], none⟩, ⟨"storage list /ext/c\r\n\r\n>: ".data, none⟩]
        ["storage list /ext\r".data, "storage list /ext/a\r".data])
      [{ IsDir := true, Path := "/ext/a".data }, { IsDir := true, Path := "/ext/b".data },
        { IsDir := true, Path := "/ext/c".data },
        { IsPlain := true, Path := "/ext/f".data, Size := 1 }]
      [{ IsDir := true, Path := "/ext/a".data }, { IsDir := true, Path := "/ext/b".data },
        { IsDir := true, Path := "/ext/c".data },
        { IsPlain := true, Path := "/ext/f".data, Size := 1 },
        { IsPlain := true, Path := "/ext/a/g".data, Size := 2 }]
      1 (by decide) (by decide) (by decide) (by decide)
      (.here _ _ _ _ _ _
        [{ IsPlain := true, Path := "/ext/b/h".data, Size := 3 },
          { IsPlain := true, Path := "/ext/b/i".data, Size := 4 }]
        []
        [{ IsPlain := true, Path := "/ext/b/i".data, Size := 4 }]
        { IsPlain := true, Path := "/ext/b/h".data, Size := 3 }
        (Device.logged [⟨"storage list /ext/c\r\n\r\n>: ".data, none⟩]
          ["storage list /ext\r".data, "storage list /ext/a\r".data,
            "storage list /ext/b\r".data])
        (Device.logged [⟨"storage list /ext/c\r\n\r\n>: ".data, none⟩]
          ["storage list /ext\r".data, "storage list /ext/a\r".data,
            "storage list /ext/b\r".data])
        [{ IsDir := true, Path := "/ext/a".data }, { IsDir := true, Path := "/ext/b".data },
          { IsDir := true, Path := "/ext/c".data },
          { IsPlain := true, Path := "/ext/f".data, Size := 1 },
          { IsPlain := true, Path := "/ext/a/g".data, Size := 2 }]
        (by decide) (by decide) (by decide) (by decide)))

/-! ## C16: the map of `Info` -/

set_option maxRecDepth 4000 in
/-- C16, the code at failing inputs: the reply holds the line
`radio_ble_mac: 0C:FA:22`; the line is split at every colon and the value kept
is the text between the first two, `0C`, not `0C:FA:22`.  On the reply `ready`,
a line without a colon, `Info` panics. -/
theorem C16_Info_cuts_value_at_colon :
    ((Device.scripted
        [⟨"info device\r\nhardware_name: Flip\r\nradio_ble_mac: 0C:FA:22\r\n\r\n>: ".data,
          none⟩]).Request "info device".data).result
      = some ("hardware_name: Flip\r\nradio_ble_mac: 0C:FA:22".data, none) ∧
    ((Device.scripted
        [⟨"info device\r\nhardware_name: Flip\r\nradio_ble_mac: 0C:FA:22\r\n\r\n>: ".data,
          none⟩]).Info "device".data).result
      = some ([("hardware_name".data, "Flip".data), ("radio_ble_mac".data, "0C".data)], none) ∧
    ((Device.scripted [⟨"info device\r\nready\r\n\r\n>: ".data, none⟩]).Request
        "info device".data).result = some ("ready".data, none) ∧
    (Device.scripted [⟨"info device\r\nready\r\n\r\n>: ".data, none⟩]).Info "device".data
      = .panic := by
  decide

/-! ## C17: the choice of the port -/

theorem filter_flippers_nil (ports : List PortDetails)
    (h : ∀ p ∈ ports, ¬ "flip_".data <:+: p.Name) :
    ports.filter (fun port => strings.Contains port.Name "flip_".data) = [] := by
  rw [List.filter_eq_nil_iff]
  intro p hp hc
  exact h p hp ((strings.Contains_iff _ _).1 hc)

theorem filter_flippers_first (before after : List PortDetails) (p : PortDetails)
    (hp : "flip_".data <:+: p.Name) (hb : ∀ q ∈ before, ¬ "flip_".data <:+: q.Name) :
    (before ++ p :: after).filter (fun port => strings.Contains port.Name "flip_".data)
      = p :: after.filter (fun port => strings.Contains port.Name "flip_".data) := by
  rw [List.filter_append, filter_flippers_nil before hb, List.nil_append]
  simp [(strings.Contains_iff _ _).2 hp]

/-- C17: on a list of enumerated ports, `resolvePort` fails exactly when no
name contains `flip_`, with the error `no connected flippers found`; and when
a port whose name contains `flip_` comes after ports whose names do not, it
returns that port with a nil error, whatever ports follow. -/
theorem C17_resolvePort_first_match (ports : List PortDetails) :
    ((resolvePort (ports, none)).1.2 ≠ none ↔ ∀ p ∈ ports, ¬ "flip_".data <:+: p.Name) ∧
    ((∀ p ∈ ports, ¬ "flip_".data <:+: p.Name) →
      (resolvePort (ports, none)).1 = (none, some (.new "no connected flippers found".data))) ∧
    (∀ before p after, ports = before ++ p :: after → "flip_".data <:+: p.Name →
      (∀ q ∈ before, ¬ "flip_".data <:+: q.Name) →
      (resolvePort (ports, none)).1 = (some p, none)) := by
  have hnone : (∀ p ∈ ports, ¬ "flip_".data <:+: p.Name) →
      (resolvePort (ports, none)).1 = (none, some (.new "no connected flippers found".data)) := by
    intro h
    simp [resolvePort, filter_flippers_nil ports h]
  have hsome : ∀ before p after, ports = before ++ p :: after → "flip_".data <:+: p.Name →
      (∀ q ∈ before, ¬ "flip_".data <:+: q.Name) →
      (resolvePort (ports, none)).1 = (some p, none) := by
    intro before p after hports hp hb
    subst hports
    simp only [resolvePort, filter_flippers_first before after p hp hb]
    split
    · rename_i h; simp at h
    · split <;> rfl
  refine ⟨⟨fun herr => ?_, fun h => by rw [hnone h]; simp⟩, hnone, hsome⟩
  by_contra hex
  push_neg at hex
  obtain ⟨p, hp, hm⟩ := hex
  have hfind : (ports.find? (fun q => strings.Contains q.Name "flip_".data)).isSome = true := by
    rw [List.find?_isSome]
    exact ⟨p, hp, (strings.Contains_iff _ _).2 hm⟩
  obtain ⟨x, hx⟩ := Option.isSome_iff_exists.1 hfind
  obtain ⟨hpx, before, after, hports, hb⟩ := List.find?_eq_some.1 hx
  have hres := hsome before x after hports ((strings.Contains_iff _ _).1 hpx)
    (fun q hq hc => by
      have := hb q hq
      rw [(strings.Contains_iff _ _).2 hc] at this
      exact absurd this (by decide))
  rw [hres] at herr
  exact herr rfl

/-- C17 on three enumerated ports of which the second and the third are
Flippers: the second is returned. -/
theorem C17_resolvePort_first_match_witness :
    [⟨"/dev/ttyS0".data, ([] : Str)⟩, ⟨"/dev/cu.usbmodemflip_Anna1".data, "A1".data⟩,
      ⟨"/dev/cu.usbmodemflip_Bert1".data, "B1".data⟩]
      = [(⟨"/dev/ttyS0".data, ([] : Str)⟩ : PortDetails)] ++
          ⟨"/dev/cu.usbmodemflip_Anna1".data, "A1".data⟩ ::
          [⟨"/dev/cu.usbmodemflip_Bert1".data, "B1".data⟩] ∧
    "flip_".data <:+: "/dev/cu.usbmodemflip_Anna1".data ∧
    (∀ q ∈ [(⟨"/dev/ttyS0".data, ([] : Str)⟩ : PortDetails)], ¬ "flip_".data <:+: q.Name) ∧
    (resolvePort ([⟨"/dev/ttyS0".data, ([] : Str)⟩, ⟨"/dev/cu.usbmodemflip_Anna1".data, "A1".data⟩,
      ⟨"/dev/cu.usbmodemflip_Bert1".data, "B1".data⟩], none)).1
      = (some ⟨"/dev/cu.usbmodemflip_Anna1".data, "A1".data⟩, none) :=
  ⟨rfl, by decide, by decide,
    (C17_resolvePort_first_match
      [⟨"/dev/ttyS0".data, ([] : Str)⟩, ⟨"/dev/cu.usbmodemflip_Anna1".data, "A1".data⟩,
        ⟨"/dev/cu.usbmodemflip_Bert1".data, "B1".data⟩]).2.2
      [⟨"/dev/ttyS0".data, ([] : Str)⟩] ⟨"/dev/cu.usbmodemflip_Anna1".data, "A1".data⟩
      [⟨"/dev/cu.usbmodemflip_Bert1".data, "B1".data⟩] rfl (by decide) (by decide)⟩

/-! ## C18: the end of the read loop -/

theorem stopsFrom_succ (started : Bool) (r : ReadResult) (rest : List ReadResult) (k : Nat) :
    stopsFrom started (r :: rest) (k + 1)
      = stopsFrom (started || decide (r.data.length > 0)) rest k := by
  simp [stopsFrom, Bool.or_assoc]

theorem readLoop_cons (started : Bool) (buffer : Str) (r : ReadResult)
    (rest : List ReadResult) :
    readLoop started buffer (r :: rest)
      = if stopsFrom started (r :: rest) 0 = true then some (buffer ++ r.data, rest)
        else readLoop (started || decide (r.data.length > 0)) (buffer ++ r.data) rest := by
  rw [readLoop]
  simp [stopsFrom]

theorem readLoop_stops (rs : List ReadResult) (started : Bool) (buffer : Str) (k : Nat)
    (hstop : stopsFrom started rs k = true)
    (hmin : ∀ i, i < k → stopsFrom started rs i = false) :
    readLoop started buffer rs
      = some (buffer ++ (rs.take (k + 1)).flatMap (fun r => r.data), rs.drop (k + 1)) := by
  induction rs generalizing started buffer k with
  | nil => simp [stopsFrom] at hstop
  | cons r rest ih =>
    rw [readLoop_cons]
    cases k with
    | zero => simp [hstop]
    | succ k =>
      have h0 := hmin 0 (Nat.succ_pos k)
      rw [h0]
      simp only [Bool.false_eq_true, if_false]
      rw [stopsFrom_succ] at hstop
      rw [ih _ _ k hstop (fun i hi => by
        have := hmin (i + 1) (Nat.succ_lt_succ hi)
        rwa [stopsFrom_succ] at this)]
      simp

theorem stopsAt_of_reads (rs : List ReadResult) (i j : Nat) (ri rj : ReadResult) (hij : i ≤ j)
    (hi : rs.get? i = some ri) (hdata : ri.data ≠ []) (hj : rs.get? j = some rj)
    (hend : rj.data = [] ∨ rj.err ≠ none) : stopsAt rs j = true := by
  have hmem : ri ∈ rs.take (j + 1) := by
    rw [List.mem_iff_get?]
    refine ⟨i, ?_⟩
    rw [List.get?_eq_getElem?, List.getElem?_take_of_lt (by omega), ← List.get?_eq_getElem?, hi]
  have hany : (rs.take (j + 1)).any (fun r => decide (r.data.length > 0)) = true := by
    rw [List.any_eq_true]
    exact ⟨ri, hmem, by simpa [List.length_pos] using hdata⟩
  have hlast : (rj.err.isSome || rj.data.length == 0) = true := by
    rcases hend with h | h
    · simp [h]
    · simp [Option.isSome_iff_ne_none, h]
  rw [List.get?_eq_getElem?] at hj
  simp [stopsAt, stopsFrom, hany, hj, hlast]

/-- C18: when the coming reads hold one that delivers a byte and, at the same
place or later, one that delivers nothing or fails, the read loop ends at the
first read `k` such that a byte was delivered up to and including `k` and read
`k` delivered nothing or failed; the buffer is the bytes of the reads up to
and including `k`, in order, the later reads are left on the port, and the
framer returns.  No read before the first byte ends the loop. -/
theorem C18_read_loop_ends_at_first_stop (rs : List ReadResult)
    (h : ∃ i j ri rj, i ≤ j ∧ rs.get? i = some ri ∧ ri.data ≠ [] ∧ rs.get? j = some rj ∧
      (rj.data = [] ∨ rj.err ≠ none)) :
    ∃ k, k < rs.length ∧
      (∃ r ∈ rs.take (k + 1), r.data ≠ []) ∧
      (∃ r, rs.get? k = some r ∧ (r.data = [] ∨ r.err ≠ none)) ∧
      stopsAt rs k = true ∧ (∀ i, i < k → stopsAt rs i = false) ∧
      (∀ i, (∀ r ∈ rs.take (i + 1), r.data = []) → stopsAt rs i = false) ∧
      readLoop false [] rs
        = some ((rs.take (k + 1)).flatMap (fun r => r.data), rs.drop (k + 1)) ∧
      ∀ (p : Port) (pfx : Str), p.reads = rs →
        readUntilNextPrompt p pfx
          = .ret (frameReply pfx ((rs.take (k + 1)).flatMap (fun r => r.data)),
              { p with reads := rs.drop (k + 1) }) := by
  obtain ⟨i, j, ri, rj, hij, hi, hdata, hj, hend⟩ := h
  have hex : ∃ k, stopsAt rs k = true := ⟨j, stopsAt_of_reads rs i j ri rj hij hi hdata hj hend⟩
  obtain ⟨k, hk, hmin⟩ : ∃ k, stopsAt rs k = true ∧ ∀ i, i < k → stopsAt rs i = false :=
    ⟨Nat.find hex, Nat.find_spec hex, fun i hi => by
      have := Nat.find_min hex hi
      simpa using this⟩
  have hloop := readLoop_stops rs false [] k hk hmin
  rw [List.nil_append] at hloop
  have hk2 := hk
  simp only [stopsAt, stopsFrom, Bool.false_or, Bool.and_eq_true, List.any_eq_true] at hk2
  obtain ⟨⟨r1, hr1, hd1⟩, hlast⟩ := hk2
  cases hg : rs.get? k with
  | none => rw [hg] at hlast; simp at hlast
  | some rk =>
    rw [hg] at hlast
    refine ⟨k, ?_, ⟨r1, hr1, ?_⟩, ⟨rk, hg, ?_⟩, hk, hmin, ?_, hloop, ?_⟩
    · exact (List.get?_eq_some.1 hg).1
    · simpa [List.length_pos] using hd1
    · simp only [Bool.or_eq_true, beq_iff_eq, List.length_eq_zero] at hlast
      rcases hlast with h | h
      · exact Or.inr (Option.isSome_iff_ne_none.1 h)
      · exact Or.inl h
    · intro i hall
      have : (rs.take (i + 1)).any (fun r => decide (r.data.length > 0)) = false := by
        rw [List.any_eq_false]
        intro r hr
        simp [hall r hr]
      simp [stopsAt, stopsFrom, this]
    · intro p pfx hp
      simp only [readUntilNextPrompt, hp, hloop]

/-- C18 on six reads: two deliver nothing (one of them failing) before the
first byte, then `ab` and `c` arrive, the fifth read delivers nothing and ends
the loop, the sixth stays on the port. -/
theorem C18_read_loop_witness :
    (∃ i j ri rj, i ≤ j ∧
      List.get? [(⟨[], none⟩ : ReadResult), ⟨[], some (.io "timeout".data)⟩, ⟨"ab".data, none⟩,
        ⟨"c".data, none⟩, ⟨[], none⟩, ⟨"zz".data, none⟩] i = some ri ∧ ri.data ≠ [] ∧
      List.get? [(⟨[], none⟩ : ReadResult), ⟨[], some (.io "timeout".data)⟩, ⟨"ab".data, none⟩,
        ⟨"c".data, none⟩, ⟨[], none⟩, ⟨"zz".data, none⟩] j = some rj ∧
      (rj.data = [] ∨ rj.err ≠ none)) ∧
    readLoop false []
      [⟨[], none⟩, ⟨[], some (.io "timeout".data)⟩, ⟨"ab".data, none⟩, ⟨"c".data, none⟩,
        ⟨[], none⟩, ⟨"zz".data, none⟩] = some ("abc".data, [⟨"zz".data, none⟩]) ∧
    ∃ k, stopsAt [⟨[], none⟩, ⟨[], some (.io "timeout".data)⟩, ⟨"ab".data, none⟩,
        ⟨"c".data, none⟩, ⟨[], none⟩, ⟨"zz".data, none⟩] k = true ∧
      readLoop false []
        [⟨[], none⟩, ⟨[], some (.io "timeout".data)⟩, ⟨"ab".data, none⟩, ⟨"c".data, none⟩,
          ⟨[], none⟩, ⟨"zz".data, none⟩]
        = some ((List.take (k + 1) [(⟨[], none⟩ : ReadResult), ⟨[], some (.io "timeout".data)⟩,
            ⟨"ab".data, none⟩, ⟨"c".data, none⟩, ⟨[], none⟩, ⟨"zz".data, none⟩]).flatMap
              (fun r => r.data),
            List.drop (k + 1) [(⟨[], none⟩ : ReadResult), ⟨[], some (.io "timeout".data)⟩,
              ⟨"ab".data, none⟩, ⟨"c".data, none⟩, ⟨[], none⟩, ⟨"zz".data, none⟩]) :=
  have hyp : ∃ i j ri rj, i ≤ j ∧
      List.get? [(⟨[], none⟩ : ReadResult), ⟨[], some (.io "timeout".data)⟩, ⟨"ab".data, none⟩,
        ⟨"c".data, none⟩, ⟨[], none⟩, ⟨"zz".data, none⟩] i = some ri ∧ ri.data ≠ [] ∧
      List.get? [(⟨[], none⟩ : ReadResult), ⟨[], some (.io "timeout".data)⟩, ⟨"ab".data, none⟩,
        ⟨"c".data, none⟩, ⟨[], none⟩, ⟨"zz".data, none⟩] j = some rj ∧
      (rj.data = [] ∨ rj.err ≠ none) :=
    ⟨2, 4, ⟨"ab".data, none⟩, ⟨[], none⟩, by decide, rfl, by decide, rfl, Or.inl rfl⟩
  ⟨hyp, by decide,
    let ⟨k, _, _, _, hk, _, _, hloop, _⟩ := C18_read_loop_ends_at_first_stop _ hyp
    ⟨k, hk, hloop⟩⟩

/-! ## C19: a `[F]` line without a size -/

set_option maxRecDepth 4000 in
/-- C19, the code at a failing input: the reply to `storage list /ext` is the
line `[F] foo`; the split of `foo` at the space has one piece only and
`parts[1]` panics. -/
theorem C19_Ls_panics_without_size :
    ((Device.scripted [⟨"storage list /ext\r\n[F] foo\r\n\r\n>: ".data, none⟩]).Request
        "storage list /ext".data).result = some ("[F] foo".data, none) ∧
    strings.Split (strings.TrimPrefix "[F] foo".data "[F] ".data) " ".data = ["foo".data] ∧
    (Device.scripted [⟨"storage list /ext\r\n[F] foo\r\n\r\n>: ".data, none⟩]).Ls "/ext".data
      = .panic := by
  decide

/-! ## C20: the paths `MkdirAll` sends -/

set_option maxRecDepth 4000 in
/-- C20, the code at a failing input: for `/ext/foo` the names passed to
`Stat` and `Mkdir` are `ext` and `ext/foo`, without the leading slash, so the
command lines sent carry paths that begin with neither `/int` nor `/ext`. -/
theorem C20_MkdirAll_drops_leading_slash :
    checkPath "/ext/foo".data = none ∧
    statNames "/ext/foo".data = ["ext".data, "ext/foo".data] ∧
    (∀ name ∈ statNames "/ext/foo".data,
      ¬ "/int".data <+: name ∧ ¬ "/ext".data <+: name ∧ ¬ name <+: "/ext/foo".data) ∧
    ((Device.scripted [⟨"\r\n>: ".data, none⟩, ⟨[], none⟩, ⟨"\r\n>: ".data, none⟩, ⟨[], none⟩,
        ⟨"\r\n>: ".data, none⟩, ⟨[], none⟩, ⟨"\r\n>: ".data, none⟩]).MkdirAll
        "/ext/foo".data).result = some none ∧
    ((Device.scripted [⟨"\r\n>: ".data, none⟩, ⟨[], none⟩, ⟨"\r\n>: ".data, none⟩, ⟨[], none⟩,
        ⟨"\r\n>: ".data, none⟩, ⟨[], none⟩, ⟨"\r\n>: ".data, none⟩]).MkdirAll
        "/ext/foo".data).written
      = ["storage stat ext\r".data, "storage mkdir ext\r".data,
         "storage stat ext/foo\r".data, "storage mkdir ext/foo\r".data] := by
  decide

end flipper
